import Mathlib

/-!
Shallow embedding of the 2D physics and collision subsystem
(`src/PhysicsEngine.js` together with the `Vector2` class from the shared
utility file) of the `contra-hd-game` repository, and verification of the
frozen claims about it.

Modelling conventions:
* JavaScript numbers are modelled by exact rationals (`ℚ`).  The raycaster,
  whose slab method genuinely relies on IEEE division by zero producing
  signed infinities (and `0/0` producing `NaN`), is modelled over an
  explicit extended-number type `JSNum` with `nan`, `posInf`, `negInf`.
* `Math.sqrt` is modelled by `ratSqrt`, a computable rational square root
  that is exact whenever the argument is the square of a rational
  (`ratSqrt_exact`); all theorems that depend on a square root carry an
  exactness hypothesis of the form `0 ≤ d ∧ d * d = ...`.
* `Math.pow(base, exp)` (used only for the per-tick damping factor in
  `updateDynamicBodies`) is transcendental; it is passed to the world-update
  function as an explicit function parameter `pow`.  No claim in scope
  depends on its values.
* Body ids: the source draws a random 9-character id per body
  (`Math.random().toString(36).substr(2,9)`).  Ids are modelled as naturals
  drawn from a fresh counter carried in the engine state, standing for the
  collision-free random draw; JavaScript's lexicographic comparison of id
  strings (used only to canonicalize a pair key) is modelled by the numeric
  order, of which only injectivity of the canonical key matters.
* JavaScript `Map`s are modelled as association lists in insertion order and
  `Set`s of object references as lists of ids without duplicates (object
  identity coincides with id equality because ids are unique).
* The spatial-hash grid stores body ids (the source stores object
  references; a reference is resolved to the current body state via the
  body map when a candidate pair is examined).
-/

/-- Rational square root: exact whenever the argument is the square of a
rational (see `ratSqrt_exact`), an under-approximation otherwise.  Models
`Math.sqrt`, which the source applies (in the claims' scope) only to
perfect squares or inside comparisons that the theorems below restate with
an exactness hypothesis. -/
def ratSqrt (q : ℚ) : ℚ :=
  if q ≤ 0 then 0 else (Nat.sqrt q.num.toNat : ℚ) / (Nat.sqrt q.den : ℚ)

theorem ratSqrt_exact (q s : ℚ) (hs : 0 ≤ s) (hsq : s * s = q) :
    ratSqrt q = s := by
  rcases eq_or_lt_of_le hs with h0 | hpos
  · subst hsq
    rw [← h0]
    simp [ratSqrt]
  · have hq : 0 < q := hsq ▸ mul_pos hpos hpos
    have hnum : q.num = s.num * s.num := by rw [← hsq]; exact Rat.mul_self_num s
    have hden : q.den = s.den * s.den := by rw [← hsq]; exact Rat.mul_self_den s
    have hsnum : 0 < s.num := Rat.num_pos.mpr hpos
    have hn : (s.num.toNat : ℤ) = s.num := Int.toNat_of_nonneg hsnum.le
    have hnumtoNat : q.num.toNat = s.num.toNat * s.num.toNat := by
      have hq' : q.num = ((s.num.toNat * s.num.toNat : ℕ) : ℤ) := by
        rw [hnum]; push_cast [hn]; ring
      rw [hq', Int.toNat_natCast]
    unfold ratSqrt
    rw [if_neg (not_le.mpr hq), hnumtoNat, hden, Nat.sqrt_eq, Nat.sqrt_eq]
    have hcast : ((s.num.toNat : ℕ) : ℚ) = (s.num : ℚ) := by exact_mod_cast hn
    rw [hcast, Rat.num_div_den]

/-- `class Vector2` (2D vector over exact rationals). -/
structure Vector2 where
  x : ℚ
  y : ℚ
deriving DecidableEq, Repr

namespace Vector2

/-- `Vector2.add(v1, v2)` (and the mutating `add`). -/
def add (v1 v2 : Vector2) : Vector2 := ⟨v1.x + v2.x, v1.y + v2.y⟩

/-- `Vector2.subtract(v1, v2)` (and the mutating `subtract`). -/
def sub (v1 v2 : Vector2) : Vector2 := ⟨v1.x - v2.x, v1.y - v2.y⟩

/-- `Vector2.multiply(vector, scalar)` (and the mutating `multiply`). -/
def scale (v : Vector2) (s : ℚ) : Vector2 := ⟨v.x * s, v.y * s⟩

/-- `divide(scalar)`: no-op when the scalar is zero. -/
def div (v : Vector2) (s : ℚ) : Vector2 :=
  if s ≠ 0 then ⟨v.x / s, v.y / s⟩ else v

/-- `dot(vector)`. -/
def dot (v1 v2 : Vector2) : ℚ := v1.x * v2.x + v1.y * v2.y

/-- `magnitudeSquared()`. -/
def magnitudeSquared (v : Vector2) : ℚ := v.x * v.x + v.y * v.y

/-- `magnitude()` = `Math.sqrt(x*x + y*y)`. -/
def magnitude (v : Vector2) : ℚ := ratSqrt v.magnitudeSquared

/-- `normalize()` / `normalized()`: divide by the magnitude when it is
positive, otherwise leave the vector unchanged. -/
def normalize (v : Vector2) : Vector2 :=
  let mag := v.magnitude
  if 0 < mag then v.div mag else v

/-- `distanceToSquared(vector)`. -/
def distanceToSquared (v1 v2 : Vector2) : ℚ :=
  (v1.x - v2.x) * (v1.x - v2.x) + (v1.y - v2.y) * (v1.y - v2.y)

/-- `distanceTo(vector)` = `Math.sqrt(dx*dx + dy*dy)`. -/
def distanceTo (v1 v2 : Vector2) : ℚ := ratSqrt (v1.distanceToSquared v2)

/-- `limit(max)`: clamp the magnitude to `max` when exceeded. -/
def limit (v : Vector2) (mx : ℚ) : Vector2 :=
  if v.magnitudeSquared > mx * mx then v.normalize.scale mx else v

end Vector2

/-- Shape variant: `{type:'circle', radius}` or `{type:'rect', width, height}`. -/
inductive Shape where
  | circle (radius : ℚ)
  | rect (width height : ℚ)
deriving DecidableEq, Repr

/-- Body type strings `'static' | 'dynamic' | 'kinematic'`. -/
inductive BodyType where
  | static
  | dynamic
  | kinematic
deriving DecidableEq, Repr

/-- Physics material `{friction, restitution, density}`. -/
structure Material where
  friction : ℚ
  restitution : ℚ
  density : ℚ
deriving DecidableEq, Repr

/-- Cached axis-aligned bounding box `{left, top, right, bottom}`. -/
structure Bounds where
  left : ℚ
  top : ℚ
  right : ℚ
  bottom : ℚ
deriving DecidableEq, Repr

/-- `class PhysicsBody` record. -/
structure Body where
  id : ℕ
  position : Vector2
  velocity : Vector2
  rotation : ℚ
  angularVelocity : ℚ
  mass : ℚ
  type : BodyType
  useGravity : Bool
  enabled : Bool
  linearDamping : ℚ
  angularDamping : ℚ
  maxVelocity : ℚ
  shape : Shape
  material : Material
  collisionLayer : ℕ
  collisionMask : ℕ
  isTrigger : Bool
  bounds : Bounds
deriving DecidableEq, Repr

/-- The bounding box `updateBounds()` computes from a position and shape. -/
def computeBounds (p : Vector2) : Shape → Bounds
  | Shape.rect w h => ⟨p.x - w / 2, p.y - h / 2, p.x + w / 2, p.y + h / 2⟩
  | Shape.circle r => ⟨p.x - r, p.y - r, p.x + r, p.y + r⟩

namespace Body

/-- `updateBounds()`: refresh the cached bounding box from position+shape. -/
def updateBounds (b : Body) : Body :=
  { b with bounds := computeBounds b.position b.shape }

/-- `getInverseMass()`: `0` for static bodies, `1/mass` otherwise. -/
def getInverseMass (b : Body) : ℚ :=
  if b.type = BodyType.static then 0 else 1 / b.mass

end Body

/-- The `options` object accepted by the `PhysicsBody` constructor; `none`
models an absent (`undefined`) field. -/
structure BodyOptions where
  position : Option Vector2 := none
  velocity : Option Vector2 := none
  rotation : Option ℚ := none
  angularVelocity : Option ℚ := none
  mass : Option ℚ := none
  type : Option BodyType := none
  useGravity : Option Bool := none
  enabled : Option Bool := none
  linearDamping : Option ℚ := none
  angularDamping : Option ℚ := none
  maxVelocity : Option ℚ := none
  shape : Option Shape := none
  material : Option Material := none
  collisionLayer : Option ℕ := none
  collisionMask : Option ℕ := none
  isTrigger : Option Bool := none

/-- JavaScript `options.f || d` for a numeric field: an absent field or the
falsy value `0` yields the default. -/
def orDefaultQ (o : Option ℚ) (d : ℚ) : ℚ :=
  match o with
  | none => d
  | some v => if v = 0 then d else v

/-- JavaScript `options.f || d` for a bitmask field. -/
def orDefaultN (o : Option ℕ) (d : ℕ) : ℕ :=
  match o with
  | none => d
  | some v => if v = 0 then d else v

/-- The `PhysicsBody` constructor, with the freshly drawn id supplied as an
argument (see module comment on id modelling). -/
def mkBody (id : ℕ) (o : BodyOptions) : Body :=
  Body.updateBounds
    { id := id
      position := o.position.getD ⟨0, 0⟩
      velocity := o.velocity.getD ⟨0, 0⟩
      rotation := orDefaultQ o.rotation 0
      angularVelocity := orDefaultQ o.angularVelocity 0
      mass := orDefaultQ o.mass 1
      type := o.type.getD BodyType.dynamic
      useGravity := o.useGravity.getD true
      enabled := o.enabled.getD true
      linearDamping := orDefaultQ o.linearDamping (1/100)
      angularDamping := orDefaultQ o.angularDamping (5/100)
      maxVelocity := orDefaultQ o.maxVelocity 0
      shape := o.shape.getD (Shape.rect 32 32)
      material := o.material.getD ⟨3/10, 2/10, 1⟩
      collisionLayer := orDefaultN o.collisionLayer 1
      collisionMask := orDefaultN o.collisionMask 0xFFFFFFFF
      isTrigger := o.isTrigger.getD false
      bounds := ⟨0, 0, 0, 0⟩ }

/-- The inclusive integer range `[lo..hi]` walked by the nested cell loops. -/
def intRange (lo hi : ℤ) : List ℤ :=
  (List.range (hi + 1 - lo).toNat).map (fun i => lo + (i : ℤ))

/-- The spatial-hash grid: a `Map` from cell key to the `Set` of bodies in
the cell (keys `"x,y"` modelled as `ℤ × ℤ`, body references as ids). -/
abbrev Grid := List ((ℤ × ℤ) × List ℕ)

/-- `SpatialHash.getCells(bounds)`: the inclusive range of cells overlapped
by a bounding box, outer loop on x, inner on y. -/
def getCells (cellSize : ℚ) (b : Bounds) : List (ℤ × ℤ) :=
  let startX := ⌊b.left / cellSize⌋
  let endX := ⌊b.right / cellSize⌋
  let startY := ⌊b.top / cellSize⌋
  let endY := ⌊b.bottom / cellSize⌋
  (intRange startX endX).flatMap (fun x => (intRange startY endY).map (fun y => (x, y)))

/-- `Map.get` on the grid. -/
def gridFind : Grid → (ℤ × ℤ) → Option (List ℕ)
  | [], _ => none
  | (c, l) :: g, c' => if c = c' then some l else gridFind g c'

/-- Add a body to the `Set` stored at an existing cell key. -/
def gridAdd : Grid → (ℤ × ℤ) → ℕ → Grid
  | [], _, _ => []
  | (c, l) :: g, c', i =>
      if c = c' then (c, if i ∈ l then l else l ++ [i]) :: g
      else (c, l) :: gridAdd g c' i

/-- One iteration of the `cells.forEach` in `SpatialHash.insert`: create the
cell's `Set` when absent, then add the body. -/
def gridInsertCell (g : Grid) (c : ℤ × ℤ) (i : ℕ) : Grid :=
  if (gridFind g c).isSome then gridAdd g c i else g ++ [(c, [i])]

/-- `SpatialHash.insert(body)`. -/
def SpatialHash.insert (cellSize : ℚ) (g : Grid) (b : Body) : Grid :=
  (getCells cellSize b.bounds).foldl (fun g c => gridInsertCell g c b.id) g

/-- The canonical pair key `idA < idB ? idA-idB : idB-idA`. -/
def pairKey (a b : ℕ) : ℕ × ℕ := if a < b then (a, b) else (b, a)

/-- The `i < j` double loop over one cell's body array. -/
def listPairs : List ℕ → List (ℕ × ℕ)
  | [] => []
  | x :: xs => xs.map (fun y => (x, y)) ++ listPairs xs

/-- All in-cell pairs in grid walk order, before deduplication. -/
def allCellPairs (g : Grid) : List (ℕ × ℕ) :=
  (g.map (fun e => listPairs e.2)).flatten

/-- The `processed` pair-key deduplication of `getPotentialCollisions`. -/
def dedupPairs : List (ℕ × ℕ) → List (ℕ × ℕ) → List (ℕ × ℕ) → List (ℕ × ℕ)
  | [], acc, _ => acc
  | p :: rest, acc, processed =>
      if pairKey p.1 p.2 ∈ processed then dedupPairs rest acc processed
      else dedupPairs rest (acc ++ [p]) (pairKey p.1 p.2 :: processed)

/-- `SpatialHash.getPotentialCollisions()`. -/
def getPotentialCollisions (g : Grid) : List (ℕ × ℕ) :=
  dedupPairs (allCellPairs g) [] []

/-- `class PhysicsEngine` state (the `stats` object inlined; `nextId` is
the fresh-id counter modelling `Math.random` id generation). -/
structure PhysicsEngine where
  gravity : Vector2
  bodies : List Body
  staticBodies : List ℕ
  dynamicBodies : List ℕ
  grid : Grid
  statsBodyCount : ℤ
  statsCollisionChecks : ℕ
  statsCollisionsDetected : ℕ
  nextId : ℕ

/-- The `PhysicsEngine` constructor: gravity `(0, 980)`, empty registry and
sets, an empty `SpatialHash(64)` grid, zeroed stats. -/
def freshEngine : PhysicsEngine :=
  { gravity := ⟨0, 980⟩
    bodies := []
    staticBodies := []
    dynamicBodies := []
    grid := []
    statsBodyCount := 0
    statsCollisionChecks := 0
    statsCollisionsDetected := 0
    nextId := 0 }

/-- `Map.set(body.id, body)`: replace in place when the key exists,
otherwise append. -/
def mapSet (bodies : List Body) (nb : Body) : List Body :=
  if bodies.any (fun b => b.id = nb.id) then
    bodies.map (fun b => if b.id = nb.id then nb else b)
  else bodies ++ [nb]

/-- `Map.has(id)`. -/
def hasId (bodies : List Body) (i : ℕ) : Bool := bodies.any (fun b => b.id = i)

/-- `Map.get(id)`. -/
def findBody : List Body → ℕ → Option Body
  | [], _ => none
  | b :: bs, i => if b.id = i then some b else findBody bs i

/-- `Map.delete(id)`. -/
def mapDelete (bodies : List Body) (i : ℕ) : List Body :=
  bodies.filter (fun b => b.id ≠ i)

/-- `Set.add(body)` on an id-modelled set. -/
def setAdd (l : List ℕ) (i : ℕ) : List ℕ := if i ∈ l then l else l ++ [i]

/-- `Set.delete(body)` on an id-modelled set. -/
def setDelete (l : List ℕ) (i : ℕ) : List ℕ := l.filter (fun j => j ≠ i)

namespace PhysicsEngine

/-- `createBody(options)`: construct, register in the map and in the
static or dynamic set, bump `stats.bodyCount`, return the body. -/
def createBody (s : PhysicsEngine) (o : BodyOptions) : PhysicsEngine × Body :=
  let b := mkBody s.nextId o
  ({ s with
      bodies := mapSet s.bodies b
      staticBodies :=
        if b.type = BodyType.static then setAdd s.staticBodies b.id else s.staticBodies
      dynamicBodies :=
        if b.type = BodyType.static then s.dynamicBodies else setAdd s.dynamicBodies b.id
      statsBodyCount := s.statsBodyCount + 1
      nextId := s.nextId + 1 }, b)

/-- `removeBody(body)`: when the id is registered, erase it from the map
and both sets and decrement `stats.bodyCount`; otherwise a no-op.  (Set
deletion is by object reference in the source, which coincides with
deletion by id because the argument is the registered body itself.) -/
def removeBody (s : PhysicsEngine) (b : Body) : PhysicsEngine :=
  if hasId s.bodies b.id then
    { s with
        bodies := mapDelete s.bodies b.id
        staticBodies := setDelete s.staticBodies b.id
        dynamicBodies := setDelete s.dynamicBodies b.id
        statsBodyCount := s.statsBodyCount - 1 }
  else s

/-- `shouldCollide(bodyA, bodyB)`: the symmetric OR filter rule. -/
def shouldCollide (bodyA bodyB : Body) : Bool :=
  (bodyA.collisionMask &&& bodyB.collisionLayer) != 0 ||
  (bodyB.collisionMask &&& bodyA.collisionLayer) != 0

end PhysicsEngine

/-- A collision manifold (bodies referenced by id). -/
structure Manifold where
  idA : ℕ
  idB : ℕ
  normal : Vector2
  penetration : ℚ
  contactPoint : Vector2
deriving DecidableEq, Repr

/-- `shape.radius` (only ever read on circle shapes). -/
def shapeRadius : Shape → ℚ
  | Shape.circle r => r
  | Shape.rect _ _ => 0

namespace PhysicsEngine

/-- `aabbOverlap(boundsA, boundsB)`. -/
def aabbOverlap (a b : Bounds) : Bool :=
  !(decide (a.right < b.left) || decide (a.left > b.right) ||
    decide (a.bottom < b.top) || decide (a.top > b.bottom))

/-- `circleCircleCollision(bodyA, bodyB)`. -/
def circleCircleCollision (bodyA bodyB : Body) : Option Manifold :=
  let distance := bodyA.position.distanceTo bodyB.position
  let radiusSum := shapeRadius bodyA.shape + shapeRadius bodyB.shape
  if distance < radiusSum then
    let normal := (Vector2.sub bodyB.position bodyA.position).normalize
    some
      { idA := bodyA.id
        idB := bodyB.id
        normal := normal
        penetration := radiusSum - distance
        contactPoint :=
          Vector2.add bodyA.position (normal.scale (shapeRadius bodyA.shape)) }
  else none

/-- `rectRectCollision(bodyA, bodyB)`. -/
def rectRectCollision (bodyA bodyB : Body) : Option Manifold :=
  let bA := bodyA.bounds
  let bB := bodyB.bounds
  let overlapX := min bA.right bB.right - max bA.left bB.left
  let overlapY := min bA.bottom bB.bottom - max bA.top bB.top
  if overlapX > 0 ∧ overlapY > 0 then
    let np : Vector2 × ℚ :=
      if overlapX < overlapY then
        (⟨if bodyA.position.x < bodyB.position.x then -1 else 1, 0⟩, overlapX)
      else
        (⟨0, if bodyA.position.y < bodyB.position.y then -1 else 1⟩, overlapY)
    some
      { idA := bodyA.id
        idB := bodyB.id
        normal := np.1
        penetration := np.2
        contactPoint :=
          ⟨(max bA.left bB.left + min bA.right bB.right) / 2,
           (max bA.top bB.top + min bA.bottom bB.bottom) / 2⟩ }
  else none

/-- `circleRectCollision(circleBody, rectBody)`. -/
def circleRectCollision (circleBody rectBody : Body) : Option Manifold :=
  let circle := circleBody.position
  let rect := rectBody.bounds
  let closestX := max rect.left (min circle.x rect.right)
  let closestY := max rect.top (min circle.y rect.bottom)
  let distance := circle.distanceTo ⟨closestX, closestY⟩
  if distance < shapeRadius circleBody.shape then
    some
      { idA := circleBody.id
        idB := rectBody.id
        normal := (Vector2.sub circle ⟨closestX, closestY⟩).normalize
        penetration := shapeRadius circleBody.shape - distance
        contactPoint := ⟨closestX, closestY⟩ }
  else none

/-- `checkCollision(bodyA, bodyB)`: AABB pre-check, then shape dispatch. -/
def checkCollision (bodyA bodyB : Body) : Option Manifold :=
  if !(aabbOverlap bodyA.bounds bodyB.bounds) then none
  else
    match bodyA.shape, bodyB.shape with
    | Shape.circle _, Shape.circle _ => circleCircleCollision bodyA bodyB
    | Shape.rect _ _, Shape.rect _ _ => rectRectCollision bodyA bodyB
    | Shape.circle _, Shape.rect _ _ => circleRectCollision bodyA bodyB
    | Shape.rect _ _, Shape.circle _ => circleRectCollision bodyB bodyA

/-- `resolvePosition(bodyA, bodyB, normal, penetration)`. -/
def resolvePosition (bodyA bodyB : Body) (normal : Vector2) (penetration : ℚ) :
    Body × Body :=
  let totalInvMass := bodyA.getInverseMass + bodyB.getInverseMass
  if totalInvMass = 0 then (bodyA, bodyB)
  else
    let correction := normal.scale (penetration / totalInvMass * (8/10))
    let bodyA' :=
      if bodyA.type = BodyType.dynamic then
        Body.updateBounds
          { bodyA with
              position := Vector2.sub bodyA.position (correction.scale bodyA.getInverseMass) }
      else bodyA
    let bodyB' :=
      if bodyB.type = BodyType.dynamic then
        Body.updateBounds
          { bodyB with
              position := Vector2.add bodyB.position (correction.scale bodyB.getInverseMass) }
      else bodyB
    (bodyA', bodyB')

/-- `applyFriction(bodyA, bodyB, normal, impulseScalar)`. -/
def applyFriction (bodyA bodyB : Body) (normal : Vector2) (impulseScalar : ℚ) :
    Body × Body :=
  let relativeVelocity := Vector2.sub bodyB.velocity bodyA.velocity
  let tangent :=
    (Vector2.sub relativeVelocity (normal.scale (relativeVelocity.dot normal))).normalize
  let frictionImpulse := -(relativeVelocity.dot tangent)
  let totalInvMass := bodyA.getInverseMass + bodyB.getInverseMass
  if totalInvMass = 0 then (bodyA, bodyB)
  else
    let mu := ratSqrt (bodyA.material.friction * bodyB.material.friction)
    let friction :=
      if |frictionImpulse| < impulseScalar * mu then
        tangent.scale (frictionImpulse / totalInvMass)
      else
        tangent.scale (-impulseScalar * mu / totalInvMass)
    let bodyA' :=
      if bodyA.type = BodyType.dynamic then
        { bodyA with velocity := Vector2.sub bodyA.velocity (friction.scale bodyA.getInverseMass) }
      else bodyA
    let bodyB' :=
      if bodyB.type = BodyType.dynamic then
        { bodyB with velocity := Vector2.add bodyB.velocity (friction.scale bodyB.getInverseMass) }
      else bodyB
    (bodyA', bodyB')

/-- `resolveVelocity(bodyA, bodyB, normal)`, including its trailing call to
`applyFriction`. -/
def resolveVelocity (bodyA bodyB : Body) (normal : Vector2) : Body × Body :=
  let relativeVelocity := Vector2.sub bodyB.velocity bodyA.velocity
  let velocityAlongNormal := relativeVelocity.dot normal
  if velocityAlongNormal > 0 then (bodyA, bodyB)
  else
    let restitution := min bodyA.material.restitution bodyB.material.restitution
    let impulseScalar := -(1 + restitution) * velocityAlongNormal
    let totalInvMass := bodyA.getInverseMass + bodyB.getInverseMass
    if totalInvMass = 0 then (bodyA, bodyB)
    else
      let impulse := normal.scale (impulseScalar / totalInvMass)
      let bodyA' :=
        if bodyA.type = BodyType.dynamic then
          { bodyA with velocity := Vector2.sub bodyA.velocity (impulse.scale bodyA.getInverseMass) }
        else bodyA
      let bodyB' :=
        if bodyB.type = BodyType.dynamic then
          { bodyB with velocity := Vector2.add bodyB.velocity (impulse.scale bodyB.getInverseMass) }
        else bodyB
      applyFriction bodyA' bodyB' normal impulseScalar

/-- `resolveCollision(collision)`: resolve one manifold against the current
body map (references resolved by id; a stale reference to a body removed
after detection is out of the modelled scope). -/
def resolveCollision (bodies : List Body) (m : Manifold) : List Body :=
  match findBody bodies m.idA, findBody bodies m.idB with
  | some a, some b =>
      let ab1 := resolvePosition a b m.normal m.penetration
      let ab2 := resolveVelocity ab1.1 ab1.2 m.normal
      mapSet (mapSet bodies ab2.1) ab2.2
  | _, _ => bodies

end PhysicsEngine

namespace PhysicsEngine

/-- The body of the `dynamicBodies.forEach` in `updateDynamicBodies`:
gravity, damping (the transcendental `Math.pow` supplied as `pow`),
velocity clamp, position/rotation integration, bounds refresh. -/
def integrateBody (pow : ℚ → ℚ → ℚ) (gravity : Vector2) (dt : ℚ) (body : Body) :
    Body :=
  let v1 :=
    if body.useGravity then Vector2.add body.velocity (gravity.scale dt)
    else body.velocity
  let v2 := v1.scale (pow (1 - body.linearDamping) dt)
  let av := body.angularVelocity * pow (1 - body.angularDamping) dt
  let v3 := if body.maxVelocity > 0 then v2.limit body.maxVelocity else v2
  Body.updateBounds
    { body with
        velocity := v3
        angularVelocity := av
        position := Vector2.add body.position (v3.scale dt)
        rotation := body.rotation + av * dt }

/-- `updateDynamicBodies(deltaTime)`: integrate every enabled body of the
dynamic set. -/
def updateDynamicBodies (pow : ℚ → ℚ → ℚ) (gravity : Vector2)
    (dynamicIds : List ℕ) (dt : ℚ) (bodies : List Body) : List Body :=
  bodies.map (fun body =>
    if body.id ∈ dynamicIds ∧ body.enabled then integrateBody pow gravity dt body
    else body)

/-- One iteration of the `potentialPairs.forEach` in `detectCollisions`:
bump the check counter, skip identical bodies and static–static pairs,
apply the layer filter, then the narrow phase. -/
def detectStep (bodies : List Body) (acc : List Manifold × ℕ × ℕ) (pr : ℕ × ℕ) :
    List Manifold × ℕ × ℕ :=
  let checks := acc.2.1 + 1
  if pr.1 = pr.2 then (acc.1, checks, acc.2.2)
  else
    match findBody bodies pr.1, findBody bodies pr.2 with
    | some a, some b =>
        if a.type = BodyType.static ∧ b.type = BodyType.static then
          (acc.1, checks, acc.2.2)
        else if !(shouldCollide a b) then (acc.1, checks, acc.2.2)
        else
          match checkCollision a b with
          | some m => (acc.1 ++ [m], checks, acc.2.2 + 1)
          | none => (acc.1, checks, acc.2.2)
    | _, _ => (acc.1, checks, acc.2.2)

/-- `detectCollisions()`: pull the candidate pairs from the broad phase and
run the narrow phase over them.  Returns the manifolds, the two counters,
and the candidate list itself (the instrumented output the claims are
about). -/
def detectCollisions (bodies : List Body) (grid : Grid) :
    List Manifold × ℕ × ℕ × List (ℕ × ℕ) :=
  let cand := getPotentialCollisions grid
  let r := cand.foldl (detectStep bodies) ([], 0, 0)
  (r.1, r.2.1, r.2.2, cand)

/-- `updateSpatialHash()`: clear the grid and re-insert every enabled body. -/
def updateSpatialHash (bodies : List Body) : Grid :=
  bodies.foldl (fun g b => if b.enabled then SpatialHash.insert 64 g b else g) []

/-- `update(deltaTime)`: reset stats, integrate dynamic bodies, detect
collisions (candidates pulled from the grid as it stands), resolve them,
then clear and repopulate the spatial hash.  The second component is the
candidate-pair list examined by this call. -/
def update (pow : ℚ → ℚ → ℚ) (s : PhysicsEngine) (dt : ℚ) :
    PhysicsEngine × List (ℕ × ℕ) :=
  let bodies1 := updateDynamicBodies pow s.gravity s.dynamicBodies dt s.bodies
  let d := detectCollisions bodies1 s.grid
  let bodies2 := d.1.foldl resolveCollision bodies1
  let grid' := updateSpatialHash bodies2
  ({ s with
      bodies := bodies2
      grid := grid'
      statsCollisionChecks := d.2.1
      statsCollisionsDetected := d.2.2.1 }, d.2.2.2)

end PhysicsEngine

theorem orDefaultQ_ne_zero (o : Option ℚ) (d : ℚ) (hd : d ≠ 0) :
    orDefaultQ o d ≠ 0 := by
  match o with
  | none => exact hd
  | some v =>
      by_cases hv : v = 0
      · simp [orDefaultQ, hv, hd]
      · simp [orDefaultQ, hv]

theorem orDefaultN_ne_zero (o : Option ℕ) (d : ℕ) (hd : d ≠ 0) :
    orDefaultN o d ≠ 0 := by
  match o with
  | none => exact hd
  | some v =>
      by_cases hv : v = 0
      · simp [orDefaultN, hv, hd]
      · simp [orDefaultN, hv]

/-- A cross-match pair: layer 1 / mask 2 against layer 2 / mask 1. -/
def crossBodyA : Body :=
  mkBody 0 { collisionLayer := some 1, collisionMask := some 2 }

/-- The partner of `crossBodyA`. -/
def crossBodyB : Body :=
  mkBody 1 { collisionLayer := some 2, collisionMask := some 1 }

/-- C4: the collision filter admits a pair exactly when A's mask meets B's
layer or B's mask meets A's layer; in particular the layer=1/mask=2 versus
layer=2/mask=1 cross-match pair is admitted. -/
theorem shouldCollide_iff_symmetric_or :
    (∀ a b : Body,
       PhysicsEngine.shouldCollide a b = true ↔
         (a.collisionMask &&& b.collisionLayer ≠ 0 ∨
          b.collisionMask &&& a.collisionLayer ≠ 0)) ∧
    PhysicsEngine.shouldCollide crossBodyA crossBodyB = true := by
  constructor
  · intro a b
    simp [PhysicsEngine.shouldCollide]
  · decide

/-- C9: a zero supplied for mass, collisionLayer, linearDamping or
angularDamping is replaced by the same nonzero default as an omitted field,
so no body is ever created with a zero value in any of these fields. -/
theorem mkBody_zero_fields_defaulted (id : ℕ) (o : BodyOptions) :
    mkBody id { o with mass := some 0 } = mkBody id { o with mass := none } ∧
    mkBody id { o with collisionLayer := some 0 } =
      mkBody id { o with collisionLayer := none } ∧
    mkBody id { o with linearDamping := some 0 } =
      mkBody id { o with linearDamping := none } ∧
    mkBody id { o with angularDamping := some 0 } =
      mkBody id { o with angularDamping := none } ∧
    (mkBody id o).mass ≠ 0 ∧ (mkBody id o).collisionLayer ≠ 0 ∧
    (mkBody id o).linearDamping ≠ 0 ∧ (mkBody id o).angularDamping ≠ 0 := by
  refine ⟨?_, ?_, ?_, ?_, ?_, ?_, ?_, ?_⟩
  · simp [mkBody, orDefaultQ]
  · simp [mkBody, orDefaultN]
  · simp [mkBody, orDefaultQ]
  · simp [mkBody, orDefaultQ]
  · simpa [mkBody, Body.updateBounds] using
      orDefaultQ_ne_zero o.mass 1 (by norm_num)
  · simpa [mkBody, Body.updateBounds] using
      orDefaultN_ne_zero o.collisionLayer 1 (by norm_num)
  · simpa [mkBody, Body.updateBounds] using
      orDefaultQ_ne_zero o.linearDamping (1/100) (by norm_num)
  · simpa [mkBody, Body.updateBounds] using
      orDefaultQ_ne_zero o.angularDamping (5/100) (by norm_num)

/-- C5: when both bodies have zero inverse mass, positional correction and
velocity resolution (friction included) return both bodies entirely
unchanged — every resolution step short-circuits before dividing by the
zero total inverse mass. -/
theorem resolve_zero_invMass_unchanged (a b : Body) (n : Vector2) (p : ℚ)
    (ha : a.getInverseMass = 0) (hb : b.getInverseMass = 0) :
    PhysicsEngine.resolvePosition a b n p = (a, b) ∧
    PhysicsEngine.resolveVelocity a b n = (a, b) := by
  constructor
  · simp [PhysicsEngine.resolvePosition, ha, hb]
  · unfold PhysicsEngine.resolveVelocity
    simp only [ha, hb, add_zero]
    split
    · rfl
    · simp

/-- A static box, used as witness input. -/
def staticBoxA : Body :=
  mkBody 0 { type := some BodyType.static, position := some ⟨0, 0⟩ }

/-- A second static box overlapping `staticBoxA`. -/
def staticBoxB : Body :=
  mkBody 1 { type := some BodyType.static, position := some ⟨10, 0⟩ }

theorem resolve_zero_invMass_unchanged_witness :
    (staticBoxA.getInverseMass = 0 ∧ staticBoxB.getInverseMass = 0) ∧
    PhysicsEngine.resolvePosition staticBoxA staticBoxB ⟨1, 0⟩ 22 =
        (staticBoxA, staticBoxB) ∧
    PhysicsEngine.resolveVelocity staticBoxA staticBoxB ⟨1, 0⟩ =
        (staticBoxA, staticBoxB) :=
  ⟨⟨by decide, by decide⟩,
    resolve_zero_invMass_unchanged staticBoxA staticBoxB ⟨1, 0⟩ 22
      (by decide) (by decide)⟩

theorem mem_mapSet (bodies : List Body) (nb : Body) : nb ∈ mapSet bodies nb := by
  unfold mapSet
  split
  · next h =>
      rcases List.any_eq_true.mp h with ⟨x, hx, hid⟩
      exact List.mem_map.mpr ⟨x, hx, by simp [of_decide_eq_true hid]⟩
  · exact List.mem_append_right _ (List.mem_singleton.mpr rfl)

/-- C7 (amended): `createBody` never fails — it performs no validation at
all.  For every spec it registers a body and bumps the body count, and a
nonzero mass (negative included) is stored exactly as supplied. -/
theorem createBody_always_registers (s : PhysicsEngine) (o : BodyOptions) :
    (s.createBody o).2 ∈ (s.createBody o).1.bodies ∧
    (s.createBody o).1.statsBodyCount = s.statsBodyCount + 1 ∧
    (∀ q : ℚ, o.mass = some q → q ≠ 0 → (s.createBody o).2.mass = q) := by
  refine ⟨mem_mapSet s.bodies (mkBody s.nextId o), rfl, ?_⟩
  intro q hq hq0
  simp [PhysicsEngine.createBody, mkBody, Body.updateBounds, orDefaultQ, hq, hq0]

/-- C7, counterexample to the claim as stated: a spec with negative mass is
not rejected — `createBody` on a fresh engine with `mass = -5` registers a
body carrying mass `-5` and counts it. -/
theorem createBody_negative_mass_registered :
    (freshEngine.createBody { mass := some (-5) }).2.mass = -5 ∧
    (freshEngine.createBody { mass := some (-5) }).2 ∈
      (freshEngine.createBody { mass := some (-5) }).1.bodies ∧
    (freshEngine.createBody { mass := some (-5) }).1.statsBodyCount = 1 := by
  refine ⟨by decide, ?_, by decide⟩
  simp [PhysicsEngine.createBody, mapSet, freshEngine]

theorem createBody_always_registers_witness :
    ((freshEngine.createBody { mass := some 7 }).2 ∈
        (freshEngine.createBody { mass := some 7 }).1.bodies ∧
      (freshEngine.createBody { mass := some 7 }).1.statsBodyCount =
        freshEngine.statsBodyCount + 1 ∧
      (freshEngine.createBody { mass := some 7 }).2.mass = 7) := by
  obtain ⟨h1, h2, h3⟩ := createBody_always_registers freshEngine { mass := some 7 }
  exact ⟨h1, h2, h3 7 rfl (by norm_num)⟩

theorem sub_magnitudeSquared (a b : Vector2) :
    (Vector2.sub b a).magnitudeSquared = a.distanceToSquared b := by
  simp [Vector2.sub, Vector2.magnitudeSquared, Vector2.distanceToSquared]
  ring

theorem aabbOverlap_eq_false_iff (x y : Bounds) :
    PhysicsEngine.aabbOverlap x y = false ↔
      (x.right < y.left ∨ x.left > y.right ∨ x.bottom < y.top ∨ x.top > y.bottom) := by
  simp only [PhysicsEngine.aabbOverlap, Bool.not_eq_false', Bool.or_eq_true,
    decide_eq_true_eq, or_assoc]

/-- C6: two circle bodies produce a manifold exactly when the center
distance is below the radius sum; the manifold then carries penetration
`(r1+r2) - d`, the normalized center difference as normal, and contact
point `centerA + normal * r1`; and (with fresh cached bounds) the
narrow-phase dispatch `checkCollision` agrees with
`circleCircleCollision`, the AABB pre-check never rejecting a truly
overlapping circle pair. -/
theorem circleCircleCollision_spec (a b : Body) (r1 r2 d : ℚ)
    (hsa : a.shape = Shape.circle r1) (hsb : b.shape = Shape.circle r2)
    (hd0 : 0 ≤ d) (hdd : d * d = a.position.distanceToSquared b.position) :
    ((PhysicsEngine.circleCircleCollision a b).isSome ↔ d < r1 + r2) ∧
    (∀ m, PhysicsEngine.circleCircleCollision a b = some m →
        m.penetration = (r1 + r2) - d ∧
        (0 < d → m.normal = ⟨(b.position.x - a.position.x) / d,
                             (b.position.y - a.position.y) / d⟩) ∧
        m.contactPoint = Vector2.add a.position (m.normal.scale r1)) ∧
    (a.bounds = computeBounds a.position a.shape →
     b.bounds = computeBounds b.position b.shape →
     PhysicsEngine.checkCollision a b = PhysicsEngine.circleCircleCollision a b) := by
  have hdist : a.position.distanceTo b.position = d :=
    ratSqrt_exact _ d hd0 hdd
  have hmag : (Vector2.sub b.position a.position).magnitude = d := by
    unfold Vector2.magnitude
    rw [sub_magnitudeSquared]
    exact ratSqrt_exact _ d hd0 hdd
  refine ⟨?_, ?_, ?_⟩
  · simp only [PhysicsEngine.circleCircleCollision, hsa, hsb, shapeRadius, hdist]
    split
    · next h => simpa using h
    · next h => simpa using h
  · intro m hm
    simp only [PhysicsEngine.circleCircleCollision, hsa, hsb, shapeRadius, hdist] at hm
    split at hm
    · next hlt =>
        rw [Option.some.injEq] at hm
        subst hm
        refine ⟨rfl, ?_, rfl⟩
        intro hdpos
        simp only [Vector2.normalize, hmag]
        rw [if_pos hdpos]
        simp [Vector2.div, Vector2.sub, ne_of_gt hdpos]
    · exact absurd hm (by simp)
  · intro hba hbb
    unfold PhysicsEngine.checkCollision
    rw [hsa, hsb]
    split
    · next hrej =>
        rw [Bool.not_eq_true', aabbOverlap_eq_false_iff] at hrej
        have hnone : ¬ (a.position.distanceTo b.position <
            shapeRadius a.shape + shapeRadius b.shape) := by
          rw [hdist, hsa, hsb]
          simp only [shapeRadius]
          intro hlt
          rw [hba, hbb, hsa, hsb] at hrej
          simp only [computeBounds] at hrej
          have hdd' : d * d =
              (a.position.x - b.position.x) * (a.position.x - b.position.x) +
              (a.position.y - b.position.y) * (a.position.y - b.position.y) := hdd
          rcases hrej with h | h | h | h
          · nlinarith [sq_nonneg (a.position.y - b.position.y)]
          · nlinarith [sq_nonneg (a.position.y - b.position.y)]
          · nlinarith [sq_nonneg (a.position.x - b.position.x)]
          · nlinarith [sq_nonneg (a.position.x - b.position.x)]
        unfold PhysicsEngine.circleCircleCollision
        rw [if_neg hnone]
    · rfl

/-- Witness input for the circle-circle narrow phase: circles of radius 10
at distance 15. -/
def circleBodyA : Body :=
  mkBody 0 { position := some ⟨0, 0⟩, shape := some (Shape.circle 10) }

/-- The partner of `circleBodyA`. -/
def circleBodyB : Body :=
  mkBody 1 { position := some ⟨15, 0⟩, shape := some (Shape.circle 10) }

theorem circleCircleCollision_spec_witness :
    (circleBodyA.shape = Shape.circle 10 ∧ circleBodyB.shape = Shape.circle 10 ∧
      (0 : ℚ) ≤ 15 ∧
      (15 : ℚ) * 15 = circleBodyA.position.distanceToSquared circleBodyB.position) ∧
    ((PhysicsEngine.circleCircleCollision circleBodyA circleBodyB).isSome ↔
      (15 : ℚ) < 10 + 10) := by
  have hdsq : (15 : ℚ) * 15 =
      circleBodyA.position.distanceToSquared circleBodyB.position := by
    norm_num [circleBodyA, circleBodyB, mkBody, Body.updateBounds,
      Vector2.distanceToSquared]
  have h := circleCircleCollision_spec circleBodyA circleBodyB 10 10 15
    (by decide) (by decide) (by norm_num) hdsq
  exact ⟨⟨by decide, by decide, by norm_num, hdsq⟩, h.1⟩

theorem getInverseMass_nonneg (b : Body) (h : 0 < b.mass) :
    0 ≤ b.getInverseMass := by
  unfold Body.getInverseMass
  split
  · exact le_refl 0
  · positivity

theorem getInverseMass_pos_of_dynamic (b : Body) (hb : b.type = BodyType.dynamic)
    (h : 0 < b.mass) : 0 < b.getInverseMass := by
  unfold Body.getInverseMass
  rw [if_neg (by rw [hb]; exact fun hcontr => BodyType.noConfusion hcontr)]
  positivity

theorem sq_eq_nonneg_unique (x y : ℚ) (hx : 0 ≤ x) (hy : 0 ≤ y)
    (h : x * x = y * y) : x = y := by
  nlinarith [sq_nonneg (x - y), sq_nonneg (x + y)]

/-- C2 (amended): positional correction displaces exactly the bodies of
type Dynamic, each along the normal by `penetration / invMassSum * 0.8`
scaled by its own inverse mass (A opposite the normal, B along it), with
bounds refreshed; Static and Kinematic bodies are never displaced.  When
the manifold comes from a circle-circle detection and at least one body is
Dynamic (with positive masses), a single application strictly reduces the
penetration. -/
theorem resolvePosition_spec (a b : Body) (n : Vector2) (p : ℚ)
    (hinv : a.getInverseMass + b.getInverseMass ≠ 0) :
    (PhysicsEngine.resolvePosition a b n p).1 =
      (if a.type = BodyType.dynamic then
        Body.updateBounds
          { a with
              position := Vector2.sub a.position
                            ((n.scale (p / (a.getInverseMass + b.getInverseMass) *
                              (8/10))).scale a.getInverseMass) }
       else a) ∧
    (PhysicsEngine.resolvePosition a b n p).2 =
      (if b.type = BodyType.dynamic then
        Body.updateBounds
          { b with
              position := Vector2.add b.position
                            ((n.scale (p / (a.getInverseMass + b.getInverseMass) *
                              (8/10))).scale b.getInverseMass) }
       else b) ∧
    (∀ r1 r2 d : ℚ,
       a.shape = Shape.circle r1 → b.shape = Shape.circle r2 →
       0 < d → d * d = a.position.distanceToSquared b.position →
       n = ⟨(b.position.x - a.position.x) / d, (b.position.y - a.position.y) / d⟩ →
       p = (r1 + r2) - d → 0 < p →
       0 < a.mass → 0 < b.mass →
       (a.type = BodyType.dynamic ∨ b.type = BodyType.dynamic) →
       ∀ e : ℚ, 0 ≤ e →
         e * e = (PhysicsEngine.resolvePosition a b n p).1.position.distanceToSquared
                   (PhysicsEngine.resolvePosition a b n p).2.position →
         (r1 + r2) - e < p) := by
  have h1 : PhysicsEngine.resolvePosition a b n p =
      ((if a.type = BodyType.dynamic then
          Body.updateBounds
            { a with
                position := Vector2.sub a.position
                              ((n.scale (p / (a.getInverseMass + b.getInverseMass) *
                                (8/10))).scale a.getInverseMass) }
        else a),
       (if b.type = BodyType.dynamic then
          Body.updateBounds
            { b with
                position := Vector2.add b.position
                              ((n.scale (p / (a.getInverseMass + b.getInverseMass) *
                                (8/10))).scale b.getInverseMass) }
        else b)) := by
    unfold PhysicsEngine.resolvePosition
    rw [if_neg hinv]
  refine ⟨by rw [h1], by rw [h1], ?_⟩
  intro r1 r2 d hsa hsb hdpos hdd hn hp hppos hma hmb hdyn e he hee
  have hd0 : d ≠ 0 := ne_of_gt hdpos
  have hwA := getInverseMass_nonneg a hma
  have hwB := getInverseMass_nonneg b hmb
  have hT0 : 0 < a.getInverseMass + b.getInverseMass :=
    lt_of_le_of_ne (by linarith) (Ne.symm hinv)
  set κ := p / (a.getInverseMass + b.getInverseMass) * (8/10) with hκdef
  have hκpos : 0 < κ := by
    rw [hκdef]
    positivity
  set wA := if a.type = BodyType.dynamic then a.getInverseMass else 0 with hwAdef
  set wB := if b.type = BodyType.dynamic then b.getInverseMass else 0 with hwBdef
  have hwA0 : 0 ≤ wA := by
    rw [hwAdef]
    split
    · exact hwA
    · exact le_refl 0
  have hwB0 : 0 ≤ wB := by
    rw [hwBdef]
    split
    · exact hwB
    · exact le_refl 0
  have hwsum : 0 < wA + wB := by
    rcases hdyn with hda | hdb
    · have := getInverseMass_pos_of_dynamic a hda hma
      rw [hwAdef, if_pos hda]
      linarith
    · have := getInverseMass_pos_of_dynamic b hdb hmb
      rw [hwBdef, if_pos hdb]
      linarith
  have hax : (PhysicsEngine.resolvePosition a b n p).1.position =
      ⟨a.position.x - n.x * κ * wA, a.position.y - n.y * κ * wA⟩ := by
    rw [h1]
    by_cases hda : a.type = BodyType.dynamic
    · rw [if_pos hda, hwAdef, if_pos hda]
      simp [Body.updateBounds, Vector2.sub, Vector2.scale, mul_assoc]
    · rw [if_neg hda, hwAdef, if_neg hda]
      simp
  have hbx : (PhysicsEngine.resolvePosition a b n p).2.position =
      ⟨b.position.x + n.x * κ * wB, b.position.y + n.y * κ * wB⟩ := by
    rw [h1]
    by_cases hdb : b.type = BodyType.dynamic
    · rw [if_pos hdb, hwBdef, if_pos hdb]
      simp [Body.updateBounds, Vector2.add, Vector2.scale, mul_assoc]
    · rw [if_neg hdb, hwBdef, if_neg hdb]
      simp
  set q := κ * (wA + wB) with hqdef
  have hqpos : 0 < q := mul_pos hκpos hwsum
  have hdd' : d * d =
      (a.position.x - b.position.x) * (a.position.x - b.position.x) +
      (a.position.y - b.position.y) * (a.position.y - b.position.y) := hdd
  have hkey : e * e = (d + q) * (d + q) := by
    rw [hee, hax, hbx, hqdef]
    simp only [Vector2.distanceToSquared, hn]
    field_simp
    linear_combination (-(d + κ * (wA + wB)) * (d + κ * (wA + wB))) * hdd'
  have heq : e = d + q := sq_eq_nonneg_unique e (d + q) he (by linarith) hkey
  rw [heq]
  linarith

theorem ratSqrt_225 : ratSqrt 225 = 15 :=
  ratSqrt_exact 225 15 (by norm_num) (by norm_num)

theorem dyn_eq_static_false : (BodyType.dynamic = BodyType.static) = False :=
  eq_false (by decide)

theorem kin_eq_static_false : (BodyType.kinematic = BodyType.static) = False :=
  eq_false (by decide)

theorem static_eq_dyn_false : (BodyType.static = BodyType.dynamic) = False :=
  eq_false (by decide)

theorem kin_eq_dyn_false : (BodyType.kinematic = BodyType.dynamic) = False :=
  eq_false (by decide)

/-- A dynamic circle of radius 10 at the origin, mass 1. -/
def dynCircleA : Body :=
  mkBody 0 { position := some ⟨0, 0⟩, shape := some (Shape.circle 10) }

/-- A static circle of radius 10 at `(15, 0)`, overlapping `dynCircleA`. -/
def statCircleB : Body :=
  mkBody 1 { position := some ⟨15, 0⟩, type := some BodyType.static,
             shape := some (Shape.circle 10) }

theorem resolvePosition_spec_witness :
    (dynCircleA.getInverseMass + statCircleB.getInverseMass ≠ 0) ∧
    ((10 : ℚ) + 10) - 19 < 5 := by
  have hinv : dynCircleA.getInverseMass + statCircleB.getInverseMass ≠ 0 := by
    norm_num [dyn_eq_static_false, kin_eq_static_false, static_eq_dyn_false, kin_eq_dyn_false, dynCircleA, statCircleB, mkBody, Body.getInverseMass,
      Body.updateBounds, orDefaultQ]
  refine ⟨hinv, ?_⟩
  exact (resolvePosition_spec dynCircleA statCircleB ⟨1, 0⟩ 5 hinv).2.2 10 10 15
    (by decide) (by decide) (by norm_num)
    (by norm_num [dyn_eq_static_false, kin_eq_static_false, static_eq_dyn_false, kin_eq_dyn_false, dynCircleA, statCircleB, mkBody, Body.updateBounds,
      Vector2.distanceToSquared])
    (by norm_num [dyn_eq_static_false, kin_eq_static_false, static_eq_dyn_false, kin_eq_dyn_false, Vector2.mk.injEq, dynCircleA, statCircleB, mkBody,
      Body.updateBounds])
    (by norm_num) (by norm_num)
    (by norm_num [dyn_eq_static_false, kin_eq_static_false, static_eq_dyn_false, kin_eq_dyn_false, dynCircleA, mkBody, Body.updateBounds, orDefaultQ])
    (by norm_num [dyn_eq_static_false, kin_eq_static_false, static_eq_dyn_false, kin_eq_dyn_false, statCircleB, mkBody, Body.updateBounds, orDefaultQ])
    (Or.inl (by decide)) 19 (by norm_num)
    (by norm_num [dyn_eq_static_false, kin_eq_static_false, static_eq_dyn_false, kin_eq_dyn_false, PhysicsEngine.resolvePosition, dynCircleA, statCircleB, mkBody,
      Body.updateBounds, Body.getInverseMass, orDefaultQ, Vector2.sub, Vector2.add,
      Vector2.scale, Vector2.distanceToSquared])

/-- A kinematic circle of radius 10 at the origin, mass 1 (inverse mass 1). -/
def kinCircleA : Body :=
  mkBody 0 { position := some ⟨0, 0⟩, type := some BodyType.kinematic,
             shape := some (Shape.circle 10) }

/-- A dynamic circle of radius 10 at `(15, 0)`, overlapping `kinCircleA`. -/
def dynCircleB : Body :=
  mkBody 1 { position := some ⟨15, 0⟩, shape := some (Shape.circle 10) }

/-- C2, counterexample to the claim as stated: in the detected manifold
between a kinematic body (inverse mass 1, not zero) and a dynamic body,
the kinematic body is never displaced, although the claimed per-body
displacement `penetration / invMassSum * 0.8 * invMass` is nonzero for it. -/
theorem resolvePosition_kinematic_not_displaced :
    PhysicsEngine.checkCollision kinCircleA dynCircleB =
      some ⟨0, 1, ⟨1, 0⟩, 5, ⟨10, 0⟩⟩ ∧
    kinCircleA.getInverseMass + dynCircleB.getInverseMass ≠ 0 ∧
    (PhysicsEngine.resolvePosition kinCircleA dynCircleB ⟨1, 0⟩ 5).1.position =
      kinCircleA.position ∧
    5 / (kinCircleA.getInverseMass + dynCircleB.getInverseMass) * (8/10) *
      kinCircleA.getInverseMass ≠ 0 := by
  refine ⟨?_, ?_, ?_, ?_⟩
  · norm_num [dyn_eq_static_false, kin_eq_static_false, static_eq_dyn_false, kin_eq_dyn_false, PhysicsEngine.checkCollision, PhysicsEngine.aabbOverlap,
      PhysicsEngine.circleCircleCollision, kinCircleA, dynCircleB, mkBody,
      Body.updateBounds, computeBounds, orDefaultQ, Vector2.distanceTo,
      Vector2.distanceToSquared, ratSqrt_225, shapeRadius, Vector2.normalize,
      Vector2.magnitude, Vector2.magnitudeSquared, Vector2.sub, Vector2.div,
      Vector2.add, Vector2.scale, Manifold.mk.injEq, Vector2.mk.injEq]
  · norm_num [dyn_eq_static_false, kin_eq_static_false, static_eq_dyn_false, kin_eq_dyn_false, kinCircleA, dynCircleB, mkBody, Body.getInverseMass,
      Body.updateBounds, orDefaultQ]
  · norm_num [dyn_eq_static_false, kin_eq_static_false, static_eq_dyn_false, kin_eq_dyn_false, PhysicsEngine.resolvePosition, kinCircleA, dynCircleB, mkBody,
      Body.updateBounds, Body.getInverseMass, orDefaultQ]
  · norm_num [dyn_eq_static_false, kin_eq_static_false, static_eq_dyn_false, kin_eq_dyn_false, kinCircleA, dynCircleB, mkBody, Body.getInverseMass,
      Body.updateBounds, orDefaultQ]

theorem ratSqrt_zero : ratSqrt 0 = 0 := by simp [ratSqrt]

theorem ratSqrt_nine_hundredths : ratSqrt (9/100) = 3/10 :=
  ratSqrt_exact (9/100) (3/10) (by norm_num) (by norm_num)

theorem scale_scale (v : Vector2) (s t : ℚ) :
    (v.scale s).scale t = v.scale (s * t) := by
  simp only [Vector2.scale, Vector2.mk.injEq]
  constructor <;> ring

theorem sub_scale_same (n : Vector2) (u v : ℚ) :
    Vector2.sub (n.scale u) (n.scale v) = n.scale (u - v) := by
  simp only [Vector2.sub, Vector2.scale, Vector2.mk.injEq]
  constructor <;> ring

theorem add_scale_same (n : Vector2) (u v : ℚ) :
    Vector2.add (n.scale u) (n.scale v) = n.scale (u + v) := by
  simp only [Vector2.add, Vector2.scale, Vector2.mk.injEq]
  constructor <;> ring

theorem scale_zero_vec (s : ℚ) : (Vector2.mk 0 0).scale s = ⟨0, 0⟩ := by
  simp [Vector2.scale]

theorem normalize_zero_vec : (Vector2.mk 0 0).normalize = ⟨0, 0⟩ := by
  simp [Vector2.normalize, Vector2.magnitude, Vector2.magnitudeSquared, ratSqrt]

theorem sub_zero_vec (v : Vector2) : Vector2.sub v ⟨0, 0⟩ = v := by
  simp [Vector2.sub]

theorem add_zero_vec (v : Vector2) : Vector2.add v ⟨0, 0⟩ = v := by
  simp [Vector2.add]

theorem getInverseMass_set_velocity (a : Body) (v : Vector2) :
    Body.getInverseMass { a with velocity := v } = a.getInverseMass := rfl

/-- C3 (amended): if the relative velocity along the normal is positive the
resolver changes nothing; otherwise the normal impulse (and the friction
impulse after it) is applied only to bodies of type Dynamic, so a
non-Dynamic body's velocity is never modified; and for a head-on collision
of two Dynamic bodies moving along a unit normal, the post-resolution
relative velocity along the normal is exactly `-(min restitutionA
restitutionB)` times the pre-resolution one. -/
theorem resolveVelocity_spec (a b : Body) (n : Vector2) (va vb : ℚ)
    (hn : n.dot n = 1) :
    ((Vector2.sub b.velocity a.velocity).dot n > 0 →
       PhysicsEngine.resolveVelocity a b n = (a, b)) ∧
    (a.type ≠ BodyType.dynamic →
       (PhysicsEngine.resolveVelocity a b n).1.velocity = a.velocity) ∧
    (b.type ≠ BodyType.dynamic →
       (PhysicsEngine.resolveVelocity a b n).2.velocity = b.velocity) ∧
    (a.type = BodyType.dynamic → b.type = BodyType.dynamic →
     0 < a.mass → 0 < b.mass →
     a.velocity = n.scale va → b.velocity = n.scale vb → vb - va ≤ 0 →
     (Vector2.sub (PhysicsEngine.resolveVelocity a b n).2.velocity
         (PhysicsEngine.resolveVelocity a b n).1.velocity).dot n
       = -(min a.material.restitution b.material.restitution) * (vb - va)) := by
  refine ⟨?_, ?_, ?_, ?_⟩
  · intro h
    unfold PhysicsEngine.resolveVelocity
    rw [if_pos h]
  · intro ha
    unfold PhysicsEngine.resolveVelocity PhysicsEngine.applyFriction
    simp only [if_neg ha]
    split_ifs <;> rfl
  · intro hb
    unfold PhysicsEngine.resolveVelocity PhysicsEngine.applyFriction
    simp only [if_neg hb]
    split_ifs <;> rfl
  · intro hda hdb hma hmb hva hvb hvn
    have hdotn : ∀ w : ℚ, (n.scale w).dot n = w := by
      intro w
      simp only [Vector2.scale, Vector2.dot] at hn ⊢
      linear_combination w * hn
    have hvn_eq : (Vector2.sub b.velocity a.velocity).dot n = vb - va := by
      rw [hva, hvb, sub_scale_same, hdotn]
    have hinvA : 0 < a.getInverseMass := getInverseMass_pos_of_dynamic a hda hma
    have hinvB : 0 < b.getInverseMass := getInverseMass_pos_of_dynamic b hdb hmb
    have hT : a.getInverseMass + b.getInverseMass ≠ 0 :=
      ne_of_gt (by linarith)
    have hgt : ¬ ((Vector2.sub b.velocity a.velocity).dot n > 0) := by
      rw [hvn_eq]
      exact not_lt.mpr hvn
    have step1 : PhysicsEngine.resolveVelocity a b n =
        PhysicsEngine.applyFriction
          { a with
              velocity :=
                Vector2.sub a.velocity
                  ((n.scale
                    ((-(1 + min a.material.restitution b.material.restitution) *
                      ((Vector2.sub b.velocity a.velocity).dot n)) /
                      (a.getInverseMass + b.getInverseMass))).scale a.getInverseMass) }
          { b with
              velocity :=
                Vector2.add b.velocity
                  ((n.scale
                    ((-(1 + min a.material.restitution b.material.restitution) *
                      ((Vector2.sub b.velocity a.velocity).dot n)) /
                      (a.getInverseMass + b.getInverseMass))).scale b.getInverseMass) }
          n
          (-(1 + min a.material.restitution b.material.restitution) *
            ((Vector2.sub b.velocity a.velocity).dot n)) := by
      unfold PhysicsEngine.resolveVelocity
      simp only [if_neg hgt, if_neg hT, if_pos hda, if_pos hdb]
    set e := min a.material.restitution b.material.restitution with hedef
    set k := (-(1 + e) * (vb - va)) / (a.getInverseMass + b.getInverseMass) with hkdef
    have hva1 : (Vector2.sub a.velocity
        ((n.scale ((-(1 + e) * ((Vector2.sub b.velocity a.velocity).dot n)) /
          (a.getInverseMass + b.getInverseMass))).scale a.getInverseMass)) =
        n.scale (va - k * a.getInverseMass) := by
      rw [hvn_eq, hva, scale_scale, sub_scale_same, hkdef]
    have hvb1 : (Vector2.add b.velocity
        ((n.scale ((-(1 + e) * ((Vector2.sub b.velocity a.velocity).dot n)) /
          (a.getInverseMass + b.getInverseMass))).scale b.getInverseMass)) =
        n.scale (vb + k * b.getInverseMass) := by
      rw [hvn_eq, hvb, scale_scale, add_scale_same, hkdef]
    have hfr : PhysicsEngine.applyFriction
        { a with velocity := n.scale (va - k * a.getInverseMass) }
        { b with velocity := n.scale (vb + k * b.getInverseMass) } n
        (-(1 + e) * ((Vector2.sub b.velocity a.velocity).dot n)) =
        ({ a with velocity := n.scale (va - k * a.getInverseMass) },
         { b with velocity := n.scale (vb + k * b.getInverseMass) }) := by
      unfold PhysicsEngine.applyFriction
      have harg : Vector2.sub
          (Vector2.sub (n.scale (vb + k * b.getInverseMass))
            (n.scale (va - k * a.getInverseMass)))
          (n.scale ((Vector2.sub (n.scale (vb + k * b.getInverseMass))
            (n.scale (va - k * a.getInverseMass))).dot n)) = ⟨0, 0⟩ := by
        rw [sub_scale_same, hdotn, sub_scale_same]
        simp [Vector2.scale]
      simp only [getInverseMass_set_velocity, harg]
      rw [if_neg hT]
      simp only [normalize_zero_vec, scale_zero_vec, ite_self, if_pos hda, if_pos hdb,
        sub_zero_vec, add_zero_vec]
    rw [step1, hva1, hvb1, hfr]
    dsimp only
    rw [sub_scale_same, hdotn, hkdef]
    field_simp
    ring

/-- A dynamic circle moving right at 5, for the head-on restitution check. -/
def dynMoverC : Body :=
  mkBody 2 { position := some ⟨0, 0⟩, velocity := some ⟨5, 0⟩,
             shape := some (Shape.circle 10) }

/-- A dynamic circle moving left at 5, meeting `dynMoverC` head-on. -/
def dynMoverD : Body :=
  mkBody 3 { position := some ⟨15, 0⟩, velocity := some ⟨-5, 0⟩,
             shape := some (Shape.circle 10) }

theorem resolveVelocity_spec_witness :
    ((⟨1, 0⟩ : Vector2).dot ⟨1, 0⟩ = 1) ∧
    (Vector2.sub (PhysicsEngine.resolveVelocity dynMoverC dynMoverD ⟨1, 0⟩).2.velocity
        (PhysicsEngine.resolveVelocity dynMoverC dynMoverD ⟨1, 0⟩).1.velocity).dot ⟨1, 0⟩
      = -(min dynMoverC.material.restitution dynMoverD.material.restitution) *
          ((-5) - 5) := by
  have hn : ((⟨1, 0⟩ : Vector2).dot ⟨1, 0⟩ = 1) := by norm_num [Vector2.dot]
  refine ⟨hn, ?_⟩
  exact (resolveVelocity_spec dynMoverC dynMoverD ⟨1, 0⟩ 5 (-5) hn).2.2.2
    (by decide) (by decide)
    (by norm_num [dynMoverC, mkBody, Body.updateBounds, orDefaultQ])
    (by norm_num [dynMoverD, mkBody, Body.updateBounds, orDefaultQ])
    (by norm_num [dynMoverC, mkBody, Body.updateBounds, Vector2.scale,
      Vector2.mk.injEq])
    (by norm_num [dynMoverD, mkBody, Body.updateBounds, Vector2.scale,
      Vector2.mk.injEq])
    (by norm_num)

/-- A kinematic circle moving right at 10 (inverse mass 1). -/
def kinMoverA : Body :=
  mkBody 0 { position := some ⟨0, 0⟩, velocity := some ⟨10, 0⟩,
             type := some BodyType.kinematic, shape := some (Shape.circle 10) }

/-- A dynamic circle moving left at 10, meeting `kinMoverA` head-on. -/
def dynMoverB : Body :=
  mkBody 1 { position := some ⟨15, 0⟩, velocity := some ⟨-10, 0⟩,
             shape := some (Shape.circle 10) }

/-- C3, counterexample to the claim as stated: in the detected approaching
manifold between a kinematic body (inverse mass 1) and a dynamic body, the
kinematic body's velocity is left unchanged although the claimed impulse
share `impulseScalar / invMassSum * invMass` for it is nonzero. -/
theorem resolveVelocity_kinematic_no_impulse :
    PhysicsEngine.checkCollision kinMoverA dynMoverB =
      some ⟨0, 1, ⟨1, 0⟩, 5, ⟨10, 0⟩⟩ ∧
    (Vector2.sub dynMoverB.velocity kinMoverA.velocity).dot ⟨1, 0⟩ ≤ 0 ∧
    (PhysicsEngine.resolveVelocity kinMoverA dynMoverB ⟨1, 0⟩).1.velocity =
      kinMoverA.velocity ∧
    -(1 + min kinMoverA.material.restitution dynMoverB.material.restitution) *
        ((Vector2.sub dynMoverB.velocity kinMoverA.velocity).dot ⟨1, 0⟩) /
        (kinMoverA.getInverseMass + dynMoverB.getInverseMass) *
      kinMoverA.getInverseMass ≠ 0 := by
  refine ⟨?_, ?_, ?_, ?_⟩
  · norm_num [dyn_eq_static_false, kin_eq_static_false, static_eq_dyn_false,
      kin_eq_dyn_false, PhysicsEngine.checkCollision, PhysicsEngine.aabbOverlap,
      PhysicsEngine.circleCircleCollision, kinMoverA, dynMoverB, mkBody,
      Body.updateBounds, computeBounds, orDefaultQ, Vector2.distanceTo,
      Vector2.distanceToSquared, ratSqrt_225, shapeRadius, Vector2.normalize,
      Vector2.magnitude, Vector2.magnitudeSquared, Vector2.sub, Vector2.div,
      Vector2.add, Vector2.scale, Manifold.mk.injEq, Vector2.mk.injEq]
  · norm_num [kinMoverA, dynMoverB, mkBody, Body.updateBounds, Vector2.sub,
      Vector2.dot]
  · norm_num [dyn_eq_static_false, kin_eq_static_false, static_eq_dyn_false,
      kin_eq_dyn_false, PhysicsEngine.resolveVelocity, PhysicsEngine.applyFriction,
      kinMoverA, dynMoverB, mkBody, Body.updateBounds, Body.getInverseMass,
      orDefaultQ, Vector2.sub, Vector2.add, Vector2.scale, Vector2.dot,
      Vector2.normalize, Vector2.magnitude, Vector2.magnitudeSquared, Vector2.div,
      ratSqrt_zero, ratSqrt_nine_hundredths]
  · norm_num [kin_eq_static_false, dyn_eq_static_false, kinMoverA, dynMoverB,
      mkBody, Body.updateBounds, Body.getInverseMass, orDefaultQ, Vector2.sub,
      Vector2.dot]

theorem mkBody_id (i : ℕ) (o : BodyOptions) : (mkBody i o).id = i := rfl

theorem setAdd_mem_iff (l : List ℕ) (i j : ℕ) :
    i ∈ setAdd l j ↔ (i ∈ l ∨ i = j) := by
  unfold setAdd
  split
  · next hj =>
      constructor
      · exact Or.inl
      · rintro (h | rfl)
        · exact h
        · exact hj
  · simp

theorem setDelete_mem_iff (l : List ℕ) (i j : ℕ) :
    i ∈ setDelete l j ↔ (i ∈ l ∧ i ≠ j) := by
  simp [setDelete, List.mem_filter]

theorem mapDelete_mem (bodies : List Body) (i : ℕ) (x : Body) :
    x ∈ mapDelete bodies i ↔ (x ∈ bodies ∧ x.id ≠ i) := by
  simp [mapDelete, List.mem_filter]

theorem mapDelete_length (bodies : List Body) (i : ℕ)
    (hn : (bodies.map Body.id).Nodup) (h : hasId bodies i = true) :
    (mapDelete bodies i).length + 1 = bodies.length := by
  induction bodies with
  | nil => simp [hasId] at h
  | cons b bs ih =>
      simp only [List.map_cons, List.nodup_cons] at hn
      by_cases hb : b.id = i
      · have hbs : mapDelete bs i = bs := by
          apply List.filter_eq_self.mpr
          intro x hx
          have hxi : x.id ≠ i := by
            intro hxi
            apply hn.1
            rw [hb, ← hxi]
            exact List.mem_map_of_mem Body.id hx
          simpa using hxi
        have hcons : mapDelete (b :: bs) i = mapDelete bs i := by
          simp [mapDelete, List.filter_cons, hb]
        rw [hcons, hbs]
        simp
      · have hbs : hasId bs i = true := by
          rcases List.any_eq_true.mp h with ⟨x, hx, hxi⟩
          rcases List.mem_cons.mp hx with rfl | hx'
          · exact absurd (of_decide_eq_true hxi) hb
          · exact List.any_eq_true.mpr ⟨x, hx', hxi⟩
        have hrec := ih hn.2 hbs
        have hcons : mapDelete (b :: bs) i = b :: mapDelete bs i := by
          simp [mapDelete, List.filter_cons, hb]
        rw [hcons]
        simp only [List.length_cons]
        omega

/-- One externally driven registry call. -/
inductive EngineOp where
  | create (o : BodyOptions)
  | remove (b : Body)

/-- Run one registry call. -/
def applyOp (s : PhysicsEngine) : EngineOp → PhysicsEngine
  | EngineOp.create o => (s.createBody o).1
  | EngineOp.remove b => s.removeBody b

/-- Run a sequence of registry calls. -/
def applyOps (s : PhysicsEngine) (ops : List EngineOp) : PhysicsEngine :=
  ops.foldl applyOp s

/-- The claimed registry invariant: registered bodies are partitioned by
type into the two sets, the sets hold only registered bodies, and the
body count matches the registry size. -/
def RegistryInvariant (s : PhysicsEngine) : Prop :=
  (∀ b ∈ s.bodies,
     (b.type = BodyType.static → b.id ∈ s.staticBodies ∧ b.id ∉ s.dynamicBodies) ∧
     (b.type ≠ BodyType.static → b.id ∈ s.dynamicBodies ∧ b.id ∉ s.staticBodies)) ∧
  (∀ i ∈ s.staticBodies, ∃ b ∈ s.bodies, b.id = i) ∧
  (∀ i ∈ s.dynamicBodies, ∃ b ∈ s.bodies, b.id = i) ∧
  s.statsBodyCount = s.bodies.length

/-- The inductive strengthening: the registry invariant plus id freshness
bookkeeping. -/
def EngineInv (s : PhysicsEngine) : Prop :=
  RegistryInvariant s ∧ (s.bodies.map Body.id).Nodup ∧
  (∀ b ∈ s.bodies, b.id < s.nextId)

theorem engineInv_fresh : EngineInv freshEngine := by
  refine ⟨⟨?_, ?_, ?_, ?_⟩, ?_, ?_⟩ <;> simp [freshEngine, RegistryInvariant]

theorem engineInv_create (s : PhysicsEngine) (o : BodyOptions) (h : EngineInv s) :
    EngineInv (s.createBody o).1 := by
  obtain ⟨⟨hpart, hstat, hdyn, hcount⟩, hnodup, hbound⟩ := h
  have hfresh : ∀ x ∈ s.bodies, x.id ≠ s.nextId := fun x hx => ne_of_lt (hbound x hx)
  set nb := mkBody s.nextId o with hnb
  have hnbid : nb.id = s.nextId := rfl
  have hany : s.bodies.any (fun x => x.id = nb.id) = false := by
    rw [List.any_eq_false]
    intro x hx
    simp [hnbid, hfresh x hx]
  have hb1 : (s.createBody o).1.bodies = s.bodies ++ [nb] := by
    show mapSet s.bodies nb = s.bodies ++ [nb]
    unfold mapSet
    rw [hany]
    simp
  have hs1 : (s.createBody o).1.staticBodies =
      (if nb.type = BodyType.static then setAdd s.staticBodies nb.id
       else s.staticBodies) := rfl
  have hd1 : (s.createBody o).1.dynamicBodies =
      (if nb.type = BodyType.static then s.dynamicBodies
       else setAdd s.dynamicBodies nb.id) := rfl
  have hc1 : (s.createBody o).1.statsBodyCount = s.statsBodyCount + 1 := rfl
  have hn1 : (s.createBody o).1.nextId = s.nextId + 1 := rfl
  have hdyn_lt : ∀ i ∈ s.dynamicBodies, i ≠ nb.id := by
    intro i hi
    obtain ⟨x, hx, hxi⟩ := hdyn i hi
    rw [← hxi, hnbid]
    exact hfresh x hx
  have hstat_lt : ∀ i ∈ s.staticBodies, i ≠ nb.id := by
    intro i hi
    obtain ⟨x, hx, hxi⟩ := hstat i hi
    rw [← hxi, hnbid]
    exact hfresh x hx
  refine ⟨⟨?_, ?_, ?_, ?_⟩, ?_, ?_⟩
  · rw [hb1, hs1, hd1]
    intro x hx
    rcases List.mem_append.mp hx with hold | hnew
    · by_cases hst : nb.type = BodyType.static
      · simp only [if_pos hst]
        refine ⟨fun hxs => ?_, fun hxs => ?_⟩
        · exact ⟨(setAdd_mem_iff _ _ _).mpr (Or.inl ((hpart x hold).1 hxs).1),
            ((hpart x hold).1 hxs).2⟩
        · refine ⟨((hpart x hold).2 hxs).1, fun hmem => ?_⟩
          rcases (setAdd_mem_iff _ _ _).mp hmem with hin | heq
          · exact ((hpart x hold).2 hxs).2 hin
          · exact hfresh x hold (heq.trans hnbid)
      · simp only [if_neg hst]
        refine ⟨fun hxs => ?_, fun hxs => ?_⟩
        · refine ⟨((hpart x hold).1 hxs).1, fun hmem => ?_⟩
          rcases (setAdd_mem_iff _ _ _).mp hmem with hin | heq
          · exact ((hpart x hold).1 hxs).2 hin
          · exact hfresh x hold (heq.trans hnbid)
        · exact ⟨(setAdd_mem_iff _ _ _).mpr (Or.inl ((hpart x hold).2 hxs).1),
            ((hpart x hold).2 hxs).2⟩
    · rw [List.mem_singleton.mp hnew]
      by_cases hst : nb.type = BodyType.static
      · simp only [if_pos hst]
        refine ⟨fun _ => ⟨(setAdd_mem_iff _ _ _).mpr (Or.inr rfl), fun hmem =>
          hdyn_lt nb.id hmem rfl⟩, fun hxs => absurd hst hxs⟩
      · simp only [if_neg hst]
        refine ⟨fun hxs => absurd hxs hst, fun _ =>
          ⟨(setAdd_mem_iff _ _ _).mpr (Or.inr rfl), fun hmem =>
            hstat_lt nb.id hmem rfl⟩⟩
  · rw [hb1, hs1]
    intro i hi
    by_cases hst : nb.type = BodyType.static
    · rw [if_pos hst] at hi
      rcases (setAdd_mem_iff _ _ _).mp hi with hin | heq
      · obtain ⟨x, hx, hxi⟩ := hstat i hin
        exact ⟨x, List.mem_append_left _ hx, hxi⟩
      · exact ⟨nb, List.mem_append_right _ (List.mem_singleton.mpr rfl), heq.symm⟩
    · rw [if_neg hst] at hi
      obtain ⟨x, hx, hxi⟩ := hstat i hi
      exact ⟨x, List.mem_append_left _ hx, hxi⟩
  · rw [hb1, hd1]
    intro i hi
    by_cases hst : nb.type = BodyType.static
    · rw [if_pos hst] at hi
      obtain ⟨x, hx, hxi⟩ := hdyn i hi
      exact ⟨x, List.mem_append_left _ hx, hxi⟩
    · rw [if_neg hst] at hi
      rcases (setAdd_mem_iff _ _ _).mp hi with hin | heq
      · obtain ⟨x, hx, hxi⟩ := hdyn i hin
        exact ⟨x, List.mem_append_left _ hx, hxi⟩
      · exact ⟨nb, List.mem_append_right _ (List.mem_singleton.mpr rfl), heq.symm⟩
  · rw [hb1, hc1, hcount]
    simp
  · rw [hb1]
    simp only [List.map_append, List.map_cons, List.map_nil, List.nodup_append]
    refine ⟨hnodup, List.nodup_singleton _, ?_⟩
    intro i hi hj
    rcases List.mem_map.mp hi with ⟨x, hx, hxi⟩
    simp only [List.mem_singleton] at hj
    rw [hj, hnbid] at hxi
    exact hfresh x hx hxi
  · rw [hb1, hn1]
    intro x hx
    rcases List.mem_append.mp hx with hold | hnew
    · exact lt_trans (hbound x hold) (Nat.lt_succ_self _)
    · rw [List.mem_singleton.mp hnew, hnbid]
      exact Nat.lt_succ_self _

theorem engineInv_remove (s : PhysicsEngine) (b : Body) (h : EngineInv s) :
    EngineInv (s.removeBody b) := by
  obtain ⟨⟨hpart, hstat, hdyn, hcount⟩, hnodup, hbound⟩ := h
  unfold PhysicsEngine.removeBody
  split
  · next hhas =>
      refine ⟨⟨?_, ?_, ?_, ?_⟩, ?_, ?_⟩
      · intro x hx
        obtain ⟨hxin, hxne⟩ := (mapDelete_mem s.bodies b.id x).mp hx
        refine ⟨fun hxs => ?_, fun hxs => ?_⟩
        · exact ⟨(setDelete_mem_iff _ _ _).mpr ⟨((hpart x hxin).1 hxs).1, hxne⟩,
            fun hmem => ((hpart x hxin).1 hxs).2 ((setDelete_mem_iff _ _ _).mp hmem).1⟩
        · exact ⟨(setDelete_mem_iff _ _ _).mpr ⟨((hpart x hxin).2 hxs).1, hxne⟩,
            fun hmem => ((hpart x hxin).2 hxs).2 ((setDelete_mem_iff _ _ _).mp hmem).1⟩
      · intro i hi
        obtain ⟨hin, hne⟩ := (setDelete_mem_iff _ _ _).mp hi
        obtain ⟨x, hx, hxi⟩ := hstat i hin
        exact ⟨x, (mapDelete_mem _ _ _).mpr ⟨hx, hxi.symm ▸ hne⟩, hxi⟩
      · intro i hi
        obtain ⟨hin, hne⟩ := (setDelete_mem_iff _ _ _).mp hi
        obtain ⟨x, hx, hxi⟩ := hdyn i hin
        exact ⟨x, (mapDelete_mem _ _ _).mpr ⟨hx, hxi.symm ▸ hne⟩, hxi⟩
      · have hlen := mapDelete_length s.bodies b.id hnodup hhas
        simp only
        rw [hcount]
        omega
      · have hsub : (mapDelete s.bodies b.id).map Body.id |>.Sublist
            (s.bodies.map Body.id) :=
          List.Sublist.map Body.id (List.filter_sublist s.bodies)
        exact hnodup.sublist hsub
      · intro x hx
        exact hbound x ((mapDelete_mem _ _ _).mp hx).1
  · exact ⟨⟨hpart, hstat, hdyn, hcount⟩, hnodup, hbound⟩

/-- C10: after any sequence of `createBody` and `removeBody` calls on a
fresh engine, every registered body lies in exactly the type set matching
its type, both sets refer only to registered bodies, and `stats.bodyCount`
equals the number of registered bodies. -/
theorem registryInvariant_after_any_ops (ops : List EngineOp) :
    RegistryInvariant (applyOps freshEngine ops) := by
  have main : ∀ (l : List EngineOp) (s : PhysicsEngine),
      EngineInv s → EngineInv (applyOps s l) := by
    intro l
    induction l with
    | nil => exact fun s hs => hs
    | cons op rest ih =>
        intro s hs
        have hstep : EngineInv (applyOp s op) := by
          cases op with
          | create o => exact engineInv_create s o hs
          | remove b => exact engineInv_remove s b hs
        exact ih _ hstep
  exact (main ops freshEngine engineInv_fresh).1

/-- An IEEE-style extended number for the raycaster: JavaScript division by
zero yields signed infinities and `0/0` yields `NaN`, which the slab method
relies on for axis-parallel rays. -/
inductive JSNum where
  | nan
  | posInf
  | negInf
  | fin (q : ℚ)
deriving DecidableEq, Repr

/-- JavaScript `<=` (false whenever an operand is `NaN`). -/
def jsLeB : JSNum → JSNum → Bool
  | JSNum.nan, _ => false
  | _, JSNum.nan => false
  | JSNum.negInf, _ => true
  | _, JSNum.negInf => false
  | _, JSNum.posInf => true
  | JSNum.posInf, _ => false
  | JSNum.fin a, JSNum.fin b => decide (a ≤ b)

/-- JavaScript `<` (false whenever an operand is `NaN`). -/
def jsLtB : JSNum → JSNum → Bool
  | JSNum.nan, _ => false
  | _, JSNum.nan => false
  | JSNum.negInf, JSNum.negInf => false
  | JSNum.negInf, _ => true
  | _, JSNum.negInf => false
  | JSNum.posInf, _ => false
  | JSNum.fin _, JSNum.posInf => true
  | JSNum.fin a, JSNum.fin b => decide (a < b)

/-- `Math.min` (`NaN` if either argument is `NaN`). -/
def jsMin (a b : JSNum) : JSNum :=
  if a = JSNum.nan ∨ b = JSNum.nan then JSNum.nan
  else if jsLeB a b then a else b

/-- `Math.max` (`NaN` if either argument is `NaN`). -/
def jsMax (a b : JSNum) : JSNum :=
  if a = JSNum.nan ∨ b = JSNum.nan then JSNum.nan
  else if jsLeB b a then a else b

/-- IEEE division of two finite numbers (zero treated as `+0`). -/
def jsDivQ (a b : ℚ) : JSNum :=
  if b = 0 then
    (if a = 0 then JSNum.nan else if 0 < a then JSNum.posInf else JSNum.negInf)
  else JSNum.fin (a / b)

/-- IEEE multiplication of a finite number by an extended one. -/
def jsMulQ (q : ℚ) : JSNum → JSNum
  | JSNum.nan => JSNum.nan
  | JSNum.fin s => JSNum.fin (q * s)
  | JSNum.posInf =>
      if q = 0 then JSNum.nan else if 0 < q then JSNum.posInf else JSNum.negInf
  | JSNum.negInf =>
      if q = 0 then JSNum.nan else if 0 < q then JSNum.negInf else JSNum.posInf

/-- IEEE addition of a finite number to an extended one. -/
def jsAddQ (q : ℚ) : JSNum → JSNum
  | JSNum.nan => JSNum.nan
  | JSNum.posInf => JSNum.posInf
  | JSNum.negInf => JSNum.negInf
  | JSNum.fin s => JSNum.fin (q + s)

/-- IEEE subtraction of a finite number from an extended one. -/
def jsSubNQ : JSNum → ℚ → JSNum
  | JSNum.nan, _ => JSNum.nan
  | JSNum.posInf, _ => JSNum.posInf
  | JSNum.negInf, _ => JSNum.negInf
  | JSNum.fin s, q => JSNum.fin (s - q)

/-- `Math.abs` on an extended number. -/
def jsAbs : JSNum → JSNum
  | JSNum.nan => JSNum.nan
  | JSNum.posInf => JSNum.posInf
  | JSNum.negInf => JSNum.posInf
  | JSNum.fin q => JSNum.fin |q|

/-- One raycast hit record `{body, point, distance, normal}` (body
referenced by id). -/
structure RaycastHit where
  body : ℕ
  point : JSNum × JSNum
  distance : JSNum
  normal : Vector2
deriving DecidableEq, Repr

namespace PhysicsEngine

/-- `calculateHitNormal(point, bounds)`: dominant-axis outward normal. -/
def calculateHitNormal (point : JSNum × JSNum) (bounds : Bounds) : Vector2 :=
  let cx := (bounds.left + bounds.right) / 2
  let cy := (bounds.top + bounds.bottom) / 2
  let diffX := jsSubNQ point.1 cx
  let diffY := jsSubNQ point.2 cy
  if jsLtB (jsAbs diffY) (jsAbs diffX) then
    ⟨if jsLtB (JSNum.fin 0) diffX then 1 else -1, 0⟩
  else
    ⟨0, if jsLtB (JSNum.fin 0) diffY then 1 else -1⟩

/-- The slab entry time: max of the per-axis slab minima. -/
def slabTNear (origin dirNorm : Vector2) (bounds : Bounds) : JSNum :=
  jsMax
    (jsMin (jsDivQ (bounds.left - origin.x) dirNorm.x)
           (jsDivQ (bounds.right - origin.x) dirNorm.x))
    (jsMin (jsDivQ (bounds.top - origin.y) dirNorm.y)
           (jsDivQ (bounds.bottom - origin.y) dirNorm.y))

/-- The slab exit time: min of the per-axis slab maxima. -/
def slabTFar (origin dirNorm : Vector2) (bounds : Bounds) : JSNum :=
  jsMin
    (jsMax (jsDivQ (bounds.left - origin.x) dirNorm.x)
           (jsDivQ (bounds.right - origin.x) dirNorm.x))
    (jsMax (jsDivQ (bounds.top - origin.y) dirNorm.y)
           (jsDivQ (bounds.bottom - origin.y) dirNorm.y))

/-- `raycastBody(origin, direction, maxDistance, body)`: rect-only slab
test against the cached bounds using the normalized direction. -/
def raycastBody (origin direction : Vector2) (maxDistance : JSNum)
    (body : Body) : Option RaycastHit :=
  match body.shape with
  | Shape.rect _ _ =>
      let bounds := body.bounds
      let dirNorm := direction.normalize
      let tNear := slabTNear origin dirNorm bounds
      let tFar := slabTFar origin dirNorm bounds
      if jsLeB tNear tFar && jsLeB (JSNum.fin 0) tNear &&
          jsLeB tNear maxDistance then
        let hitPoint := (jsAddQ origin.x (jsMulQ dirNorm.x tNear),
                         jsAddQ origin.y (jsMulQ dirNorm.y tNear))
        some { body := body.id, point := hitPoint, distance := tNear,
               normal := calculateHitNormal hitPoint bounds }
      else none
  | Shape.circle _ => none

/-- Insertion step of the ascending-by-distance sort
(`hits.sort((a, b) => a.distance - b.distance)`). -/
def insertHit (h : RaycastHit) : List RaycastHit → List RaycastHit
  | [] => [h]
  | x :: xs =>
      if jsLeB h.distance x.distance then h :: x :: xs else x :: insertHit h xs

/-- Ascending insertion sort by hit distance. -/
def sortHits (l : List RaycastHit) : List RaycastHit := l.foldr insertHit []

/-- The `bodies.forEach` collection pass of `raycast`: enabled bodies whose
layer meets the mask, in registry order. -/
def raycastHitsOf (s : PhysicsEngine) (origin direction : Vector2)
    (maxDistance : JSNum) (layerMask : ℕ) : List RaycastHit :=
  s.bodies.filterMap (fun body =>
    if body.enabled && (body.collisionLayer &&& layerMask) != 0 then
      raycastBody origin direction maxDistance body
    else none)

/-- `raycast(origin, direction, maxDistance, layerMask)`. -/
def raycast (s : PhysicsEngine) (origin direction : Vector2)
    (maxDistance : JSNum) (layerMask : ℕ) : List RaycastHit :=
  sortHits (raycastHitsOf s origin direction maxDistance layerMask)

end PhysicsEngine

theorem ratSqrt_one : ratSqrt 1 = 1 :=
  ratSqrt_exact 1 1 (by norm_num) (by norm_num)

theorem jsLeB_trans (x y z : JSNum) (h1 : jsLeB x y = true)
    (h2 : jsLeB y z = true) : jsLeB x z = true := by
  cases x <;> cases y <;> cases z <;>
    simp only [jsLeB, decide_eq_true_eq] at h1 h2 ⊢ <;>
    first
      | exact le_trans h1 h2
      | trivial

theorem jsLeB_total (x y : JSNum) (hx : x ≠ JSNum.nan) (hy : y ≠ JSNum.nan) :
    jsLeB x y = true ∨ jsLeB y x = true := by
  cases x <;> cases y <;>
    simp only [jsLeB, decide_eq_true_eq] at * <;>
    first
      | exact le_total _ _
      | trivial

theorem jsLeB_fin_zero_ne_nan (t : JSNum) (h : jsLeB (JSNum.fin 0) t = true) :
    t ≠ JSNum.nan := by
  cases t <;> simp_all [jsLeB]

theorem insertHit_mem (h x : RaycastHit) (l : List RaycastHit) :
    x ∈ PhysicsEngine.insertHit h l ↔ (x = h ∨ x ∈ l) := by
  induction l with
  | nil => simp [PhysicsEngine.insertHit]
  | cons a as ih =>
      simp only [PhysicsEngine.insertHit]
      split
      · simp
      · simp only [List.mem_cons, ih]
        tauto

theorem sortHits_mem (x : RaycastHit) (l : List RaycastHit) :
    x ∈ PhysicsEngine.sortHits l ↔ x ∈ l := by
  induction l with
  | nil => simp [PhysicsEngine.sortHits]
  | cons a as ih =>
      show x ∈ PhysicsEngine.insertHit a (PhysicsEngine.sortHits as) ↔ _
      rw [insertHit_mem]
      simp [ih]

theorem insertHit_pairwise (h : RaycastHit) (l : List RaycastHit)
    (hh : h.distance ≠ JSNum.nan) (hl : ∀ x ∈ l, x.distance ≠ JSNum.nan)
    (hp : l.Pairwise (fun a b => jsLeB a.distance b.distance = true)) :
    (PhysicsEngine.insertHit h l).Pairwise
      (fun a b => jsLeB a.distance b.distance = true) := by
  induction l with
  | nil => simp [PhysicsEngine.insertHit]
  | cons x xs ih =>
      rw [List.pairwise_cons] at hp
      simp only [PhysicsEngine.insertHit]
      split
      · next hle =>
          refine List.pairwise_cons.mpr ⟨?_, List.pairwise_cons.mpr hp⟩
          intro y hy
          rcases List.mem_cons.mp hy with rfl | hy'
          · exact hle
          · exact jsLeB_trans _ _ _ hle (hp.1 y hy')
      · next hle =>
          have hxh : jsLeB x.distance h.distance = true := by
            rcases jsLeB_total h.distance x.distance hh
                (hl x (List.mem_cons_self x xs)) with h1 | h2
            · exact absurd h1 hle
            · exact h2
          refine List.pairwise_cons.mpr
            ⟨?_, ih (fun y hy => hl y (List.mem_cons_of_mem x hy)) hp.2⟩
          intro y hy
          rcases (insertHit_mem h y xs).mp hy with rfl | hy'
          · exact hxh
          · exact hp.1 y hy'

theorem sortHits_pairwise (l : List RaycastHit)
    (hl : ∀ x ∈ l, x.distance ≠ JSNum.nan) :
    (PhysicsEngine.sortHits l).Pairwise
      (fun a b => jsLeB a.distance b.distance = true) := by
  induction l with
  | nil => simp [PhysicsEngine.sortHits]
  | cons a as ih =>
      show (PhysicsEngine.insertHit a (PhysicsEngine.sortHits as)).Pairwise _
      refine insertHit_pairwise a (PhysicsEngine.sortHits as)
        (hl a (List.mem_cons_self a as)) ?_
        (ih (fun x hx => hl x (List.mem_cons_of_mem a hx)))
      intro x hx
      exact hl x (List.mem_cons_of_mem a ((sortHits_mem x as).mp hx))

theorem raycastBody_distance (origin direction : Vector2) (maxD : JSNum)
    (b : Body) (h : RaycastHit)
    (hh : PhysicsEngine.raycastBody origin direction maxD b = some h) :
    h.distance = PhysicsEngine.slabTNear origin direction.normalize b.bounds ∧
    h.distance ≠ JSNum.nan := by
  simp only [PhysicsEngine.raycastBody] at hh
  split at hh
  · split at hh
    · next hcond =>
        rw [Option.some.injEq] at hh
        subst hh
        simp only [Bool.and_eq_true] at hcond
        exact ⟨rfl, jsLeB_fin_zero_ne_nan _ hcond.1.2⟩
    · exact absurd hh (by simp)
  · exact absurd hh (by simp)

theorem fin_eq_nan_false (q : ℚ) : (JSNum.fin q = JSNum.nan) = False :=
  eq_false (fun h => JSNum.noConfusion h)

theorem posInf_eq_nan_false : (JSNum.posInf = JSNum.nan) = False :=
  eq_false (fun h => JSNum.noConfusion h)

theorem negInf_eq_nan_false : (JSNum.negInf = JSNum.nan) = False :=
  eq_false (fun h => JSNum.noConfusion h)

theorem raycastHitsOf_mem (s : PhysicsEngine) (origin direction : Vector2)
    (maxD : JSNum) (mask : ℕ) (h : RaycastHit) :
    h ∈ PhysicsEngine.raycastHitsOf s origin direction maxD mask ↔
      ∃ b ∈ s.bodies, b.enabled = true ∧ b.collisionLayer &&& mask ≠ 0 ∧
        PhysicsEngine.raycastBody origin direction maxD b = some h := by
  unfold PhysicsEngine.raycastHitsOf
  rw [List.mem_filterMap]
  constructor
  · rintro ⟨b, hb, hsome⟩
    by_cases hcond : (b.enabled && (b.collisionLayer &&& mask) != 0) = true
    · rw [if_pos hcond] at hsome
      simp only [Bool.and_eq_true, bne_iff_ne] at hcond
      exact ⟨b, hb, hcond.1, hcond.2, hsome⟩
    · rw [if_neg hcond] at hsome
      exact absurd hsome (by simp)
  · rintro ⟨b, hb, hen, hlm, hsome⟩
    refine ⟨b, hb, ?_⟩
    rw [if_pos (by simp [hen, bne_iff_ne, hlm])]
    exact hsome

/-- The rect body of the flagship raycast scenario: spans `x ∈ [100, 110]`,
`y ∈ [-5, 5]`. -/
def rayBoxBody : Body :=
  mkBody 0 { position := some ⟨105, 0⟩, type := some BodyType.static,
             shape := some (Shape.rect 10 10) }

/-- A fresh engine holding only `rayBoxBody`. -/
def rayBoxEngine : PhysicsEngine :=
  (freshEngine.createBody { position := some ⟨105, 0⟩,
                            type := some BodyType.static,
                            shape := some (Shape.rect 10 10) }).1

/-- The expected hit of the flagship raycast scenario. -/
def rayBoxHit : RaycastHit :=
  { body := 0
    point := (JSNum.fin 100, JSNum.fin 0)
    distance := JSNum.fin 100
    normal := ⟨-1, 0⟩ }

/-- C8: every raycast result is sorted ascending by distance; a hit appears
exactly for an enabled body whose layer meets the mask and whose
`raycastBody` test fires; for a rect body that test fires exactly when the
slab entry time `tNear` (max of per-axis slab minima) satisfies
`tNear ≤ tFar`, `tNear ≥ 0` and `tNear ≤ maxDistance`, and the hit's
distance is `tNear`; and the flagship ray, from the origin along `(1, 0)`
against the `[100,110] × [-5,5]` box, returns exactly one hit at distance
100 with normal `(-1, 0)`. -/
theorem raycast_spec :
    (∀ (s : PhysicsEngine) (origin direction : Vector2) (maxD : JSNum) (mask : ℕ),
       (PhysicsEngine.raycast s origin direction maxD mask).Pairwise
         (fun a b => jsLeB a.distance b.distance = true)) ∧
    (∀ (s : PhysicsEngine) (origin direction : Vector2) (maxD : JSNum) (mask : ℕ)
       (h : RaycastHit),
       h ∈ PhysicsEngine.raycast s origin direction maxD mask ↔
         ∃ b ∈ s.bodies, b.enabled = true ∧ b.collisionLayer &&& mask ≠ 0 ∧
           PhysicsEngine.raycastBody origin direction maxD b = some h) ∧
    (∀ (origin direction : Vector2) (maxD : JSNum) (b : Body) (w hgt : ℚ),
       b.shape = Shape.rect w hgt →
       ((PhysicsEngine.raycastBody origin direction maxD b).isSome ↔
          (jsLeB (PhysicsEngine.slabTNear origin direction.normalize b.bounds)
             (PhysicsEngine.slabTFar origin direction.normalize b.bounds) = true ∧
           jsLeB (JSNum.fin 0)
             (PhysicsEngine.slabTNear origin direction.normalize b.bounds) = true ∧
           jsLeB (PhysicsEngine.slabTNear origin direction.normalize b.bounds)
             maxD = true)) ∧
       (∀ h, PhysicsEngine.raycastBody origin direction maxD b = some h →
          h.distance = PhysicsEngine.slabTNear origin direction.normalize b.bounds)) ∧
    PhysicsEngine.raycast rayBoxEngine ⟨0, 0⟩ ⟨1, 0⟩ (JSNum.fin 1000) 0xFFFFFFFF =
      [rayBoxHit] := by
  refine ⟨?_, ?_, ?_, ?_⟩
  · intro s origin direction maxD mask
    apply sortHits_pairwise
    intro x hx
    obtain ⟨b, _, _, _, hsome⟩ :=
      (raycastHitsOf_mem s origin direction maxD mask x).mp hx
    exact (raycastBody_distance origin direction maxD b x hsome).2
  · intro s origin direction maxD mask h
    unfold PhysicsEngine.raycast
    rw [sortHits_mem]
    exact raycastHitsOf_mem s origin direction maxD mask h
  · intro origin direction maxD b w hgt hb
    constructor
    · simp only [PhysicsEngine.raycastBody, hb]
      split
      · next hcond =>
          simp only [Bool.and_eq_true] at hcond
          simp [hcond.1.1, hcond.1.2, hcond.2]
      · next hcond =>
          simp only [Option.isSome_none, Bool.false_eq_true, false_iff]
          rintro ⟨h1, h2, h3⟩
          exact hcond (by simp [h1, h2, h3])
    · intro h hh
      exact (raycastBody_distance origin direction maxD b h hh).1
  · have hbodies : rayBoxEngine.bodies = [rayBoxBody] := by
      show mapSet [] rayBoxBody = [rayBoxBody]
      simp [mapSet]
    have hshape : rayBoxBody.shape = Shape.rect 10 10 := rfl
    have hbounds : rayBoxBody.bounds = ⟨100, -5, 110, 5⟩ := by
      norm_num [rayBoxBody, mkBody, Body.updateBounds, computeBounds,
        Bounds.mk.injEq]
    have hdir : (⟨1, 0⟩ : Vector2).normalize = ⟨1, 0⟩ := by
      norm_num [Vector2.normalize, Vector2.magnitude, Vector2.magnitudeSquared,
        ratSqrt_one, Vector2.div, Vector2.mk.injEq]
    have hrb : PhysicsEngine.raycastBody ⟨0, 0⟩ ⟨1, 0⟩ (JSNum.fin 1000)
        rayBoxBody = some rayBoxHit := by
      simp only [PhysicsEngine.raycastBody, hshape, hdir, hbounds]
      norm_num [PhysicsEngine.slabTNear, PhysicsEngine.slabTFar, jsDivQ, jsMin,
        jsMax, jsLeB, jsMulQ, jsAddQ, jsSubNQ, jsAbs, jsLtB,
        PhysicsEngine.calculateHitNormal, fin_eq_nan_false, posInf_eq_nan_false,
        negInf_eq_nan_false, RaycastHit.mk.injEq, Prod.mk.injEq,
        Vector2.mk.injEq, rayBoxBody, rayBoxHit, mkBody, Body.updateBounds]
    unfold PhysicsEngine.raycast PhysicsEngine.raycastHitsOf
    rw [hbodies]
    have hen : rayBoxBody.enabled = true := rfl
    have hl : (rayBoxBody.collisionLayer &&& 0xFFFFFFFF) ≠ 0 := by decide
    simp only [List.filterMap_cons, List.filterMap_nil]
    rw [if_pos (by simp [hen, bne_iff_ne, hl]), hrb]
    simp [PhysicsEngine.sortHits, PhysicsEngine.insertHit]

/-- A body (id) is present in a grid cell. -/
def InCell (g : Grid) (c : ℤ × ℤ) (i : ℕ) : Prop :=
  ∃ l, gridFind g c = some l ∧ i ∈ l

theorem gridFind_cons (ce : ℤ × ℤ) (le : List ℕ) (g : Grid) (c : ℤ × ℤ) :
    gridFind ((ce, le) :: g) c = if ce = c then some le else gridFind g c := rfl

theorem gridAdd_cons (ce : ℤ × ℤ) (le : List ℕ) (g : Grid) (c : ℤ × ℤ) (i : ℕ) :
    gridAdd ((ce, le) :: g) c i =
      if ce = c then (ce, if i ∈ le then le else le ++ [i]) :: g
      else (ce, le) :: gridAdd g c i := rfl

theorem gridFind_append_some (g tail : Grid) (c : ℤ × ℤ) (l : List ℕ)
    (h : gridFind g c = some l) : gridFind (g ++ tail) c = some l := by
  induction g with
  | nil => simp [gridFind] at h
  | cons e g ih =>
      obtain ⟨ce, le⟩ := e
      rw [List.cons_append, gridFind_cons]
      rw [gridFind_cons] at h
      by_cases heq : ce = c
      · rw [if_pos heq] at h ⊢
        exact h
      · rw [if_neg heq] at h ⊢
        exact ih h

theorem gridFind_append_none (g tail : Grid) (c : ℤ × ℤ)
    (h : gridFind g c = none) : gridFind (g ++ tail) c = gridFind tail c := by
  induction g with
  | nil => simp
  | cons e g ih =>
      obtain ⟨ce, le⟩ := e
      rw [List.cons_append, gridFind_cons]
      rw [gridFind_cons] at h
      by_cases heq : ce = c
      · rw [if_pos heq] at h
        exact absurd h (by simp)
      · rw [if_neg heq] at h ⊢
        exact ih h

theorem inCell_gridAdd_self (g : Grid) (c : ℤ × ℤ) (i : ℕ) (l : List ℕ)
    (h : gridFind g c = some l) : InCell (gridAdd g c i) c i := by
  induction g with
  | nil => simp [gridFind] at h
  | cons e g ih =>
      obtain ⟨ce, le⟩ := e
      rw [gridFind_cons] at h
      rw [gridAdd_cons]
      by_cases heq : ce = c
      · rw [if_pos heq]
        refine ⟨if i ∈ le then le else le ++ [i], ?_, ?_⟩
        · rw [gridFind_cons, if_pos heq]
        · split
          · next hmem => exact hmem
          · exact List.mem_append_right _ (List.mem_singleton.mpr rfl)
      · rw [if_neg heq]
        rw [if_neg heq] at h
        obtain ⟨l2, hf, hm⟩ := ih h
        exact ⟨l2, by rw [gridFind_cons, if_neg heq]; exact hf, hm⟩

theorem inCell_gridAdd_mono (g : Grid) (c' : ℤ × ℤ) (i' : ℕ) (c : ℤ × ℤ) (i : ℕ)
    (h : InCell g c i) : InCell (gridAdd g c' i') c i := by
  induction g with
  | nil => simpa [gridAdd] using h
  | cons e g ih =>
      obtain ⟨ce, le⟩ := e
      obtain ⟨l, hf, hm⟩ := h
      rw [gridFind_cons] at hf
      rw [gridAdd_cons]
      by_cases heq' : ce = c'
      · rw [if_pos heq']
        by_cases heq : ce = c
        · rw [if_pos heq] at hf
          rw [Option.some.injEq] at hf
          subst hf
          refine ⟨if i' ∈ le then le else le ++ [i'],
            by rw [gridFind_cons, if_pos heq], ?_⟩
          split
          · exact hm
          · exact List.mem_append_left _ hm
        · rw [if_neg heq] at hf
          exact ⟨l, by rw [gridFind_cons, if_neg heq]; exact hf, hm⟩
      · rw [if_neg heq']
        by_cases heq : ce = c
        · rw [if_pos heq] at hf
          rw [Option.some.injEq] at hf
          subst hf
          exact ⟨le, by rw [gridFind_cons, if_pos heq], hm⟩
        · rw [if_neg heq] at hf
          obtain ⟨l2, hf2, hm2⟩ := ih ⟨l, hf, hm⟩
          exact ⟨l2, by rw [gridFind_cons, if_neg heq]; exact hf2, hm2⟩

theorem inCell_gridInsertCell_self (g : Grid) (c : ℤ × ℤ) (i : ℕ) :
    InCell (gridInsertCell g c i) c i := by
  unfold gridInsertCell
  split
  · next hfound =>
      obtain ⟨l, hl⟩ := Option.isSome_iff_exists.mp hfound
      exact inCell_gridAdd_self g c i l hl
  · next hfound =>
      have hnone : gridFind g c = none := by
        rcases hfind : gridFind g c with _ | l
        · rfl
        · rw [hfind] at hfound
          simp at hfound
      refine ⟨[i], ?_, List.mem_singleton.mpr rfl⟩
      rw [gridFind_append_none g _ c hnone, gridFind_cons, if_pos rfl]

theorem inCell_gridInsertCell_mono (g : Grid) (c' : ℤ × ℤ) (i' : ℕ)
    (c : ℤ × ℤ) (i : ℕ) (h : InCell g c i) :
    InCell (gridInsertCell g c' i') c i := by
  unfold gridInsertCell
  split
  · exact inCell_gridAdd_mono g c' i' c i h
  · obtain ⟨l, hf, hm⟩ := h
    exact ⟨l, gridFind_append_some g _ c l hf, hm⟩

theorem inCell_foldl_mono (cells : List (ℤ × ℤ)) (g : Grid) (j : ℕ)
    (c : ℤ × ℤ) (i : ℕ) (h : InCell g c i) :
    InCell (cells.foldl (fun g c' => gridInsertCell g c' j) g) c i := by
  induction cells generalizing g with
  | nil => exact h
  | cons c0 cs ih => exact ih _ (inCell_gridInsertCell_mono g c0 j c i h)

theorem inCell_foldl_self (cells : List (ℤ × ℤ)) (g : Grid) (j : ℕ)
    (c : ℤ × ℤ) (hc : c ∈ cells) :
    InCell (cells.foldl (fun g c' => gridInsertCell g c' j) g) c j := by
  induction cells generalizing g with
  | nil => simp at hc
  | cons c0 cs ih =>
      rcases List.mem_cons.mp hc with rfl | hc'
      · exact inCell_foldl_mono cs _ j c j (inCell_gridInsertCell_self g c j)
      · simp only [List.foldl_cons]
        exact ih (gridInsertCell g c0 j) hc'

theorem inCell_insert_self (cellSize : ℚ) (g : Grid) (b : Body) (c : ℤ × ℤ)
    (hc : c ∈ getCells cellSize b.bounds) :
    InCell (SpatialHash.insert cellSize g b) c b.id :=
  inCell_foldl_self _ g b.id c hc

theorem inCell_insert_mono (cellSize : ℚ) (g : Grid) (b : Body) (c : ℤ × ℤ)
    (i : ℕ) (h : InCell g c i) : InCell (SpatialHash.insert cellSize g b) c i :=
  inCell_foldl_mono _ g b.id c i h

theorem inCell_populate_fold_mono (c : ℤ × ℤ) (i : ℕ) :
    ∀ (l : List Body) (g : Grid), InCell g c i →
      InCell (l.foldl
        (fun g b => if b.enabled then SpatialHash.insert 64 g b else g) g) c i := by
  intro l
  induction l with
  | nil => exact fun g h => h
  | cons b bs ih =>
      intro g h
      simp only [List.foldl_cons]
      apply ih
      split
      · exact inCell_insert_mono 64 g b c i h
      · exact h

theorem inCell_populate_fold (a : Body) (c : ℤ × ℤ)
    (hen : a.enabled = true) (hc : c ∈ getCells 64 a.bounds) :
    ∀ (l : List Body) (g : Grid), a ∈ l →
      InCell (l.foldl
        (fun g b => if b.enabled then SpatialHash.insert 64 g b else g) g) c a.id := by
  intro l
  induction l with
  | nil =>
      intro g h
      simp at h
  | cons b bs ih =>
      intro g h
      rcases List.mem_cons.mp h with rfl | h'
      · simp only [List.foldl_cons]
        apply inCell_populate_fold_mono
        rw [if_pos hen]
        exact inCell_insert_self 64 g a c hc
      · simp only [List.foldl_cons]
        exact ih _ h'

theorem inCell_populate (bodies : List Body) (a : Body) (c : ℤ × ℤ)
    (ha : a ∈ bodies) (hen : a.enabled = true)
    (hc : c ∈ getCells 64 a.bounds) :
    InCell (PhysicsEngine.updateSpatialHash bodies) c a.id :=
  inCell_populate_fold a c hen hc bodies [] ha

theorem listPairs_complete (l : List ℕ) (i j : ℕ) (hi : i ∈ l) (hj : j ∈ l)
    (hne : i ≠ j) : (i, j) ∈ listPairs l ∨ (j, i) ∈ listPairs l := by
  induction l with
  | nil => simp at hi
  | cons x xs ih =>
      rcases List.mem_cons.mp hi with rfl | hi'
      · have hj' : j ∈ xs := by
          rcases List.mem_cons.mp hj with rfl | hj'
          · exact absurd rfl hne
          · exact hj'
        exact Or.inl (List.mem_append_left _
          (List.mem_map.mpr ⟨j, hj', rfl⟩))
      · rcases List.mem_cons.mp hj with rfl | hj'
        · exact Or.inr (List.mem_append_left _
            (List.mem_map.mpr ⟨i, hi', rfl⟩))
        · rcases ih hi' hj' with h | h
          · exact Or.inl (List.mem_append_right _ h)
          · exact Or.inr (List.mem_append_right _ h)

theorem allCellPairs_mem (g : Grid) (c : ℤ × ℤ) (l : List ℕ) (p : ℕ × ℕ)
    (hfind : gridFind g c = some l) (hp : p ∈ listPairs l) :
    p ∈ allCellPairs g := by
  induction g with
  | nil => simp [gridFind] at hfind
  | cons e g ih =>
      obtain ⟨ce, le⟩ := e
      rw [gridFind_cons] at hfind
      unfold allCellPairs
      simp only [List.map_cons, List.flatten_cons]
      split at hfind
      · rw [Option.some.injEq] at hfind
        subst hfind
        exact List.mem_append_left _ hp
      · exact List.mem_append_right _ (ih hfind)

theorem pairKey_cases (x y a b : ℕ) (h : pairKey x y = pairKey a b) :
    (x = a ∧ y = b) ∨ (x = b ∧ y = a) := by
  unfold pairKey at h
  split at h <;> split at h <;>
    simp only [Prod.mk.injEq] at h <;> omega

theorem dedupPairs_acc_mono (input : List (ℕ × ℕ)) :
    ∀ (acc processed : List (ℕ × ℕ)) (p : ℕ × ℕ), p ∈ acc →
      p ∈ dedupPairs input acc processed := by
  induction input with
  | nil => intro acc processed p hp; exact hp
  | cons q rest ih =>
      intro acc processed p hp
      unfold dedupPairs
      split
      · exact ih acc processed p hp
      · exact ih _ _ p (List.mem_append_left _ hp)

theorem dedupPairs_complete (a b : ℕ) :
    ∀ (input acc processed : List (ℕ × ℕ)),
      ((a, b) ∈ input ∨ ((a, b) ∈ acc ∨ (b, a) ∈ acc)) →
      (pairKey a b ∈ processed → ((a, b) ∈ acc ∨ (b, a) ∈ acc)) →
      ((a, b) ∈ dedupPairs input acc processed ∨
       (b, a) ∈ dedupPairs input acc processed) := by
  intro input
  induction input with
  | nil =>
      intro acc processed hmem _
      rcases hmem with hmem | hmem
      · simp at hmem
      · unfold dedupPairs
        rcases hmem with h | h
        · exact Or.inl h
        · exact Or.inr h
  | cons q rest ih =>
      intro acc processed hmem hproc
      unfold dedupPairs
      split
      · next hkey =>
          refine ih acc processed ?_ hproc
          rcases hmem with hmem | hmem
          · rcases List.mem_cons.mp hmem with heq | hmem'
            · rw [← heq] at hkey
              exact Or.inr (hproc hkey)
            · exact Or.inl hmem'
          · exact Or.inr hmem
      · next hkey =>
          refine ih (acc ++ [q]) (pairKey q.1 q.2 :: processed) ?_ ?_
          · rcases hmem with hmem | hmem
            · rcases List.mem_cons.mp hmem with heq | hmem'
              · exact Or.inr (Or.inl (List.mem_append_right _
                  (List.mem_singleton.mpr heq)))
              · exact Or.inl hmem'
            · rcases hmem with h | h
              · exact Or.inr (Or.inl (List.mem_append_left _ h))
              · exact Or.inr (Or.inr (List.mem_append_left _ h))
          · intro hkmem
            rcases List.mem_cons.mp hkmem with hkeq | hkmem'
            · rcases pairKey_cases a b q.1 q.2 hkeq with ⟨h1, h2⟩ | ⟨h1, h2⟩
              · left
                refine List.mem_append_right _ (List.mem_singleton.mpr ?_)
                rw [h1, h2]
              · right
                refine List.mem_append_right _ (List.mem_singleton.mpr ?_)
                rw [h2, h1]
            · rcases hproc hkmem' with h | h
              · exact Or.inl (List.mem_append_left _ h)
              · exact Or.inr (List.mem_append_left _ h)

theorem getPotentialCollisions_complete (g : Grid) (c : ℤ × ℤ) (l : List ℕ)
    (a b : ℕ) (hfind : gridFind g c = some l) (ha : a ∈ l) (hb : b ∈ l)
    (hne : a ≠ b) :
    (a, b) ∈ getPotentialCollisions g ∨ (b, a) ∈ getPotentialCollisions g := by
  unfold getPotentialCollisions
  rcases listPairs_complete l a b ha hb hne with hp | hp
  · exact dedupPairs_complete a b (allCellPairs g) [] []
      (Or.inl (allCellPairs_mem g c l (a, b) hfind hp)) (by simp)
  · rcases dedupPairs_complete b a (allCellPairs g) [] []
        (Or.inl (allCellPairs_mem g c l (b, a) hfind hp)) (by simp) with h | h
    · exact Or.inr h
    · exact Or.inl h

/-- C1 (amended): within one `update` call the candidate pairs are pulled
from the spatial hash exactly as it stood on entry — the hash is cleared
and repopulated from current bounds only at the end of the call, after
resolution.  The repopulated hash is complete: two distinct enabled bodies
sharing a grid cell are a candidate pair of `getPotentialCollisions`, so a
pair that overlaps in a shared cell at the end of one update call appears
in the candidate set examined by the next update call. -/
theorem update_stale_hash_spec :
    (∀ (pow : ℚ → ℚ → ℚ) (s : PhysicsEngine) (dt : ℚ),
       (PhysicsEngine.update pow s dt).2 = getPotentialCollisions s.grid) ∧
    (∀ (pow : ℚ → ℚ → ℚ) (s : PhysicsEngine) (dt : ℚ),
       (PhysicsEngine.update pow s dt).1.grid =
         PhysicsEngine.updateSpatialHash (PhysicsEngine.update pow s dt).1.bodies) ∧
    (∀ (bodies : List Body) (a b : Body) (c : ℤ × ℤ),
       a ∈ bodies → b ∈ bodies → a.enabled = true → b.enabled = true →
       a.id ≠ b.id → c ∈ getCells 64 a.bounds → c ∈ getCells 64 b.bounds →
       ((a.id, b.id) ∈
          getPotentialCollisions (PhysicsEngine.updateSpatialHash bodies) ∨
        (b.id, a.id) ∈
          getPotentialCollisions (PhysicsEngine.updateSpatialHash bodies))) ∧
    (∀ (pow pow2 : ℚ → ℚ → ℚ) (s : PhysicsEngine) (dt dt2 : ℚ) (a b : Body)
       (c : ℤ × ℤ),
       a ∈ (PhysicsEngine.update pow s dt).1.bodies →
       b ∈ (PhysicsEngine.update pow s dt).1.bodies →
       a.enabled = true → b.enabled = true → a.id ≠ b.id →
       c ∈ getCells 64 a.bounds → c ∈ getCells 64 b.bounds →
       ((a.id, b.id) ∈
          (PhysicsEngine.update pow2 (PhysicsEngine.update pow s dt).1 dt2).2 ∨
        (b.id, a.id) ∈
          (PhysicsEngine.update pow2 (PhysicsEngine.update pow s dt).1 dt2).2)) := by
  have h1 : ∀ (pow : ℚ → ℚ → ℚ) (s : PhysicsEngine) (dt : ℚ),
      (PhysicsEngine.update pow s dt).2 = getPotentialCollisions s.grid :=
    fun _ _ _ => rfl
  have h2 : ∀ (pow : ℚ → ℚ → ℚ) (s : PhysicsEngine) (dt : ℚ),
      (PhysicsEngine.update pow s dt).1.grid =
        PhysicsEngine.updateSpatialHash (PhysicsEngine.update pow s dt).1.bodies :=
    fun _ _ _ => rfl
  have h3 : ∀ (bodies : List Body) (a b : Body) (c : ℤ × ℤ),
      a ∈ bodies → b ∈ bodies → a.enabled = true → b.enabled = true →
      a.id ≠ b.id → c ∈ getCells 64 a.bounds → c ∈ getCells 64 b.bounds →
      ((a.id, b.id) ∈
         getPotentialCollisions (PhysicsEngine.updateSpatialHash bodies) ∨
       (b.id, a.id) ∈
         getPotentialCollisions (PhysicsEngine.updateSpatialHash bodies)) := by
    intro bodies a b c hain hbin haen hben hne hca hcb
    obtain ⟨la, hfa, hma⟩ := inCell_populate bodies a c hain haen hca
    obtain ⟨lb, hfb, hmb⟩ := inCell_populate bodies b c hbin hben hcb
    rw [hfa] at hfb
    rw [Option.some.injEq] at hfb
    subst hfb
    exact getPotentialCollisions_complete _ c la a.id b.id hfa hma hmb hne
  refine ⟨h1, h2, h3, ?_⟩
  intro pow pow2 s dt dt2 a b c ha hb haen hben hne hca hcb
  rw [h1 pow2 (PhysicsEngine.update pow s dt).1 dt2, h2 pow s dt]
  exact h3 _ a b c ha hb haen hben hne hca hcb

/-- The first body of the first-tick counterexample: an enabled dynamic
circle whose bounds lie fully within grid cell `(0, 0)`. -/
def overlapBodyA : Body :=
  mkBody 0 { position := some ⟨20, 20⟩, shape := some (Shape.circle 10) }

/-- The second body: overlaps `overlapBodyA` and shares its cell. -/
def overlapBodyB : Body :=
  mkBody 1 { position := some ⟨30, 30⟩, shape := some (Shape.circle 10) }

/-- A fresh engine with exactly the two overlapping bodies registered. -/
def overlapEngine : PhysicsEngine :=
  ((freshEngine.createBody
      { position := some ⟨20, 20⟩, shape := some (Shape.circle 10) }).1.createBody
      { position := some ⟨30, 30⟩, shape := some (Shape.circle 10) }).1

/-- C1, counterexample to the claim as stated: on the first `update` call
of an engine holding two enabled bodies whose exact shapes overlap and
whose bounds lie fully within the shared grid cell `(0, 0)` — positions
unchanged by the `dt = 0` integration, so the same holds at detection
time — the candidate set examined by that same call is empty: the hash
had never been populated when the candidates were pulled. -/
theorem update_first_tick_misses_overlap :
    (overlapBodyA ∈ overlapEngine.bodies ∧ overlapBodyB ∈ overlapEngine.bodies) ∧
    (overlapBodyA.enabled = true ∧ overlapBodyB.enabled = true) ∧
    overlapBodyA.position.distanceToSquared overlapBodyB.position <
      (10 + 10) * (10 + 10) ∧
    getCells 64 overlapBodyA.bounds = [(0, 0)] ∧
    getCells 64 overlapBodyB.bounds = [(0, 0)] ∧
    PhysicsEngine.updateDynamicBodies (fun _ _ => 1) overlapEngine.gravity
      overlapEngine.dynamicBodies 0 overlapEngine.bodies = overlapEngine.bodies ∧
    (PhysicsEngine.update (fun _ _ => 1) overlapEngine 0).2 = [] := by
  have hbodies : overlapEngine.bodies = [overlapBodyA, overlapBodyB] := by
    show mapSet (mapSet [] overlapBodyA) overlapBodyB = [overlapBodyA, overlapBodyB]
    simp [mapSet, overlapBodyA, overlapBodyB, mkBody, Body.updateBounds]
  have hbA : overlapBodyA.bounds = ⟨10, 10, 30, 30⟩ := by
    norm_num [overlapBodyA, mkBody, Body.updateBounds, computeBounds,
      Bounds.mk.injEq]
  have hbB : overlapBodyB.bounds = ⟨20, 20, 40, 40⟩ := by
    norm_num [overlapBodyB, mkBody, Body.updateBounds, computeBounds,
      Bounds.mk.injEq]
  have hcellsA : getCells 64 overlapBodyA.bounds = [(0, 0)] := by
    rw [hbA]
    norm_num [getCells, intRange, List.range_succ, List.range_zero]
  have hcellsB : getCells 64 overlapBodyB.bounds = [(0, 0)] := by
    rw [hbB]
    norm_num [getCells, intRange, List.range_succ, List.range_zero]
  have hintA : PhysicsEngine.integrateBody (fun _ _ => 1) ⟨0, 980⟩ 0
      overlapBodyA = overlapBodyA := by
    norm_num [PhysicsEngine.integrateBody, overlapBodyA, mkBody,
      Body.updateBounds, computeBounds, Vector2.add, Vector2.scale,
      Vector2.limit, Vector2.magnitudeSquared, orDefaultQ, Body.mk.injEq,
      Vector2.mk.injEq, Bounds.mk.injEq]
  have hintB : PhysicsEngine.integrateBody (fun _ _ => 1) ⟨0, 980⟩ 0
      overlapBodyB = overlapBodyB := by
    norm_num [PhysicsEngine.integrateBody, overlapBodyB, mkBody,
      Body.updateBounds, computeBounds, Vector2.add, Vector2.scale,
      Vector2.limit, Vector2.magnitudeSquared, orDefaultQ, Body.mk.injEq,
      Vector2.mk.injEq, Bounds.mk.injEq]
  have hdynids : overlapEngine.dynamicBodies = [0, 1] := rfl
  have hgrav : overlapEngine.gravity = ⟨0, 980⟩ := rfl
  refine ⟨⟨by rw [hbodies]; simp, by rw [hbodies]; simp⟩, ⟨rfl, rfl⟩, ?_,
    hcellsA, hcellsB, ?_, rfl⟩
  · norm_num [overlapBodyA, overlapBodyB, mkBody, Body.updateBounds,
      Vector2.distanceToSquared]
  · rw [hbodies, hdynids, hgrav]
    unfold PhysicsEngine.updateDynamicBodies
    simp only [List.map_cons, List.map_nil]
    rw [if_pos (by constructor <;> [simp [overlapBodyA, mkBody, Body.updateBounds]; rfl]),
      if_pos (by constructor <;> [simp [overlapBodyB, mkBody, Body.updateBounds]; rfl]),
      hintA, hintB]
